import Mathlib

/-! # libglabels template module (`libglabels/template.c`)

A shallow embedding of the template module of libglabels and the properties of
its geometry engine and of its template registry.

Conventions of the embedding.

* `gdouble` values are elements of an arbitrary linearly ordered commutative ring `R`
  (exact arithmetic; the definitions run at `R = Int`).  Rounding, infinities and
  NaN of IEEE doubles are outside the model.
* A `gint` has 32 bits: the result of `gint` arithmetic is the integer result wrapped
  into the range from `-2147483648` to `2147483647` (`gint_wrap`).
* A `GList` is a `List`, `g_list_append` adds at the end.
* A C string that the code never tests against `NULL` is a `String`; an argument that
  the code does test against `NULL` is an `Option String`.
* A call whose behaviour is not defined by the code (an allocation of a negative
  number of records, a store past the end of an array, a dereference of `NULL`) has
  result `none`; an allocation of a number of records that is not negative succeeds.
-/

namespace Glabels

set_option linter.unusedSectionVars false

variable {R : Type} [LinearOrderedCommRing R]

/-! ## Data model (`template.h`) -/

/-- Origin of one label on the page (`lglTemplateOrigin`). -/
structure lglTemplateOrigin (R : Type) where
  x : R
  y : R
deriving DecidableEq, Repr

/-- One grid of labels (`lglTemplateLayout`). -/
structure lglTemplateLayout (R : Type) where
  nx : Int
  ny : Int
  x0 : R
  y0 : R
  dx : R
  dy : R
deriving DecidableEq, Repr

/-- Guide shapes (`lglTemplateMarkup`), one constructor per markup type. -/
inductive lglTemplateMarkup (R : Type) where
  | margin (size : R)
  | line (x1 y1 x2 y2 : R)
  | circle (x0 y0 r : R)
  | rect (x1 y1 w h r : R)
deriving DecidableEq, Repr

/-- Members shared by every frame shape (`lglTemplateFrameAll`, without the shape tag). -/
structure lglTemplateFrameAll (R : Type) where
  id : String
  layouts : List (lglTemplateLayout R)
  markups : List (lglTemplateMarkup R)
deriving DecidableEq, Repr

/-- The frame union (`lglTemplateFrame`): the constructor is the `shape` tag.  The
constructor `unknown` stands for a record whose tag is none of
`LGL_TEMPLATE_FRAME_SHAPE_RECT`, `..._ROUND`, `..._CD`. -/
inductive lglTemplateFrame (R : Type) where
  | rect (all : lglTemplateFrameAll R) (w h r x_waste y_waste : R)
  | round (all : lglTemplateFrameAll R) (r waste : R)
  | cd (all : lglTemplateFrameAll R) (r1 r2 w h waste : R)
  | unknown (all : lglTemplateFrameAll R)
deriving DecidableEq, Repr

/-- The `all` view of the frame union. -/
def lglTemplateFrame.all : lglTemplateFrame R → lglTemplateFrameAll R
  | .rect all _ _ _ _ _ => all
  | .round all _ _ => all
  | .cd all _ _ _ _ _ => all
  | .unknown all => all

/-! ## Geometry engine -/

/-- Width and height of a frame (`lgl_template_frame_get_size`); the pair is `(*w, *h)`. -/
def lgl_template_frame_get_size : lglTemplateFrame R → R × R
  | .rect _ w h _ _ _ => (w, h)
  | .round _ r _ => (2 * r, 2 * r)
  | .cd _ r1 _ w h _ =>
      ((if w = 0 then 2 * r1 else w), (if h = 0 then 2 * r1 else h))
  | .unknown _ => (0, 0)

/-- The value that a `gint` (32 bits, two's complement) holds for an integer result. -/
def gint_wrap (n : Int) : Int :=
  (n + 2147483648) % 4294967296 - 2147483648

/-- Number of labels per sheet (`lgl_template_frame_get_n_labels`): the loop
`n_labels += layout->nx * layout->ny` over the layouts, in `gint` arithmetic. -/
def lgl_template_frame_get_n_labels (frame : lglTemplateFrame R) : Int :=
  frame.all.layouts.foldl
    (fun n_labels layout => gint_wrap (n_labels + gint_wrap (layout.nx * layout.ny))) 0

/-- Comparison callback of the sort (`compare_origins`): first by `y`, then by `x`. -/
def compare_origins (a_origin b_origin : lglTemplateOrigin R) : Int :=
  if a_origin.y < b_origin.y then -1
  else if a_origin.y > b_origin.y then 1
  else if a_origin.x < b_origin.x then -1
  else if a_origin.x > b_origin.x then 1
  else 0

/-- GLib's `g_qsort_with_data`: sorts the array by the comparison callback
(`a` is placed before `b` when `compare_func a b ≤ 0`). -/
def g_qsort_with_data {α : Type} (pbase : List α) (compare_func : α → α → Int) : List α :=
  pbase.insertionSort (fun a b => compare_func a b ≤ 0)

/-- The store `origins[i_label] = o` followed by `i_label++`; a store past the end of
the array has no defined result. -/
def origins_store (st : List (lglTemplateOrigin R) × Nat) (o : lglTemplateOrigin R) :
    Option (List (lglTemplateOrigin R) × Nat) :=
  if st.2 < st.1.length then some (st.1.set st.2 o, st.2 + 1) else none

/-- The two nested loops of `lgl_template_frame_get_origins` for one layout
(`iy` outer, `ix` inner), run on the array and the running index `i_label`. -/
def origins_fill_layout (layout : lglTemplateLayout R)
    (st : List (lglTemplateOrigin R) × Nat) : Option (List (lglTemplateOrigin R) × Nat) :=
  (List.range layout.ny.toNat).foldlM (fun st (iy : Nat) =>
    (List.range layout.nx.toNat).foldlM (fun st (ix : Nat) =>
      origins_store st
        { x := (ix : R) * layout.dx + layout.x0, y := (iy : R) * layout.dy + layout.y0 })
      st) st

/-- Array of label origins (`lgl_template_frame_get_origins`): `g_new0` of `n_labels`
zeroed records (which cannot succeed for a negative count), the fill loops over the
layouts, then the sort. -/
def lgl_template_frame_get_origins (frame : lglTemplateFrame R) :
    Option (List (lglTemplateOrigin R)) :=
  let n_labels := lgl_template_frame_get_n_labels frame
  if n_labels < 0 then none
  else
    let origins : List (lglTemplateOrigin R) := List.replicate n_labels.toNat { x := 0, y := 0 }
    match frame.all.layouts.foldlM (fun st layout => origins_fill_layout layout st) (origins, 0) with
    | none => none
    | some (origins, _) => some (g_qsort_with_data origins compare_origins)

/-! ## The grid of the specification -/

/-- The points of one layout as the specification lists them: `iy` in `[0, ny)` outer,
`ix` in `[0, nx)` inner, each `{x = x0 + ix*dx, y = y0 + iy*dy}`. -/
def layout_grid (layout : lglTemplateLayout R) : List (lglTemplateOrigin R) :=
  (List.range layout.ny.toNat).flatMap (fun (iy : Nat) =>
    (List.range layout.nx.toNat).map (fun (ix : Nat) =>
      { x := layout.x0 + (ix : R) * layout.dx, y := layout.y0 + (iy : R) * layout.dy }))

/-- The concatenation of the grids of all layouts of a frame, in layout order. -/
def frame_grid (frame : lglTemplateFrame R) : List (lglTemplateOrigin R) :=
  frame.all.layouts.flatMap layout_grid

/-- The order of the specification on origins: `y` ascending, then `x` ascending. -/
def origin_le (p1 p2 : lglTemplateOrigin R) : Prop :=
  p1.y < p2.y ∨ (p1.y = p2.y ∧ p1.x ≤ p2.x)

/-! ## Template entity model -/

/-- A template record (`lglTemplate`). -/
structure lglTemplate (R : Type) where
  name : String
  description : String
  page_size : String
  page_width : R
  page_height : R
  aliases : List String
  categories : List String
  frames : List (lglTemplateFrame R)
deriving DecidableEq, Repr

/-- A paper record (`lglPaper` of `paper.h`). -/
structure lglPaper (R : Type) where
  id : String
  name : String
  width : R
  height : R
deriving DecidableEq, Repr

/-- Character code after `isupper (c) ? tolower (c) : c` in the C locale. -/
def ascii_lower (c : Nat) : Nat :=
  if 65 ≤ c ∧ c ≤ 90 then c + 32 else c

/-- The loop of GLib's `g_strcasecmp` on the character codes of the two strings. -/
def g_strcasecmp_codes : List Nat → List Nat → Int
  | c1 :: s1, c2 :: s2 =>
      if ascii_lower c1 ≠ ascii_lower c2 then (ascii_lower c1 : Int) - (ascii_lower c2 : Int)
      else g_strcasecmp_codes s1 s2
  | c1 :: _, [] => (c1 : Int)
  | [], c2 :: _ => - (c2 : Int)
  | [], [] => 0

/-- The character codes of the C string held by a string: a C string ends at its
first `NUL`. -/
def c_string_codes (s : String) : List Nat :=
  (s.toList.map Char.toNat).takeWhile (fun c => c ≠ 0)

/-- GLib's `g_strcasecmp` on two strings that are not `NULL`.  Only the sign of the
result is used by the module; on character codes it has the sign it has on bytes. -/
def g_strcasecmp (s1 s2 : String) : Int :=
  g_strcasecmp_codes (c_string_codes s1) (c_string_codes s2)

/-- GLib's `g_list_insert_sorted`: the new element goes before the first element `x`
of the list with `func data x ≤ 0`, or to the end when there is none. -/
def g_list_insert_sorted {α : Type} (list : List α) (data : α) (func : α → α → Int) : List α :=
  match list with
  | [] => [data]
  | x :: rest =>
    if func data x > 0 then x :: g_list_insert_sorted rest data func
    else data :: x :: rest

/-- Creates a template (`lgl_template_new`): the primary name is always put in the
alias list. -/
def lgl_template_new (name description page_size : String) (page_width page_height : R) :
    lglTemplate R :=
  { name := name, description := description, page_size := page_size,
    page_width := page_width, page_height := page_height,
    aliases := [] ++ [name], categories := [], frames := [] }

/-- Appends a frame (`lgl_template_add_frame`); a `NULL` frame is refused. -/
def lgl_template_add_frame (template : lglTemplate R) (frame : Option (lglTemplateFrame R)) :
    lglTemplate R :=
  match frame with
  | none => template
  | some frame => { template with frames := template.frames ++ [frame] }

/-- Appends a category (`lgl_template_add_category`); a `NULL` string is refused. -/
def lgl_template_add_category (template : lglTemplate R) (category : Option String) :
    lglTemplate R :=
  match category with
  | none => template
  | some category => { template with categories := template.categories ++ [category] }

/-- Appends an alias (`lgl_template_add_alias`); a `NULL` string is refused. -/
def lgl_template_add_alias (template : lglTemplate R) (alias_name : Option String) :
    lglTemplate R :=
  match alias_name with
  | none => template
  | some alias_name => { template with aliases := template.aliases ++ [alias_name] }

/-- Rectangular frame (`lgl_template_frame_rect_new`). -/
def lgl_template_frame_rect_new (id : String) (w h r x_waste y_waste : R) :
    lglTemplateFrame R :=
  .rect { id := id, layouts := [], markups := [] } w h r x_waste y_waste

/-- Round frame (`lgl_template_frame_round_new`). -/
def lgl_template_frame_round_new (id : String) (r waste : R) : lglTemplateFrame R :=
  .round { id := id, layouts := [], markups := [] } r waste

/-- CD frame (`lgl_template_frame_cd_new`). -/
def lgl_template_frame_cd_new (id : String) (r1 r2 w h waste : R) : lglTemplateFrame R :=
  .cd { id := id, layouts := [], markups := [] } r1 r2 w h waste

/-- Appends a layout to `frame->all.layouts` (`lgl_template_frame_add_layout`). -/
def lgl_template_frame_add_layout (frame : lglTemplateFrame R) (layout : lglTemplateLayout R) :
    lglTemplateFrame R :=
  match frame with
  | .rect all w h r xw yw => .rect { all with layouts := all.layouts ++ [layout] } w h r xw yw
  | .round all r waste => .round { all with layouts := all.layouts ++ [layout] } r waste
  | .cd all r1 r2 w h waste => .cd { all with layouts := all.layouts ++ [layout] } r1 r2 w h waste
  | .unknown all => .unknown { all with layouts := all.layouts ++ [layout] }

/-- Appends a markup to `frame->all.markups` (`lgl_template_frame_add_markup`). -/
def lgl_template_frame_add_markup (frame : lglTemplateFrame R) (markup : lglTemplateMarkup R) :
    lglTemplateFrame R :=
  match frame with
  | .rect all w h r xw yw => .rect { all with markups := all.markups ++ [markup] } w h r xw yw
  | .round all r waste => .round { all with markups := all.markups ++ [markup] } r waste
  | .cd all r1 r2 w h waste => .cd { all with markups := all.markups ++ [markup] } r1 r2 w h waste
  | .unknown all => .unknown { all with markups := all.markups ++ [markup] }

/-- Creates a layout (`lgl_template_layout_new`). -/
def lgl_template_layout_new (nx ny : Int) (x0 y0 dx dy : R) : lglTemplateLayout R :=
  { nx := nx, ny := ny, x0 := x0, y0 := y0, dx := dx, dy := dy }

/-- Margin markup (`lgl_template_markup_margin_new`). -/
def lgl_template_markup_margin_new (size : R) : lglTemplateMarkup R :=
  .margin size

/-- Copy of a layout (`lgl_template_layout_dup`, `*layout = *orig_layout`). -/
def lgl_template_layout_dup (orig_layout : lglTemplateLayout R) : lglTemplateLayout R :=
  orig_layout

/-- Copy of a markup (`lgl_template_markup_dup`, `*markup = *orig_markup`). -/
def lgl_template_markup_dup (orig_markup : lglTemplateMarkup R) : lglTemplateMarkup R :=
  orig_markup

/-- Copy of a frame (`lgl_template_frame_dup`): rebuilt by the constructor of its
shape, then the layouts and the markups are copied over; `NULL` for a shape that is
none of the three. -/
def lgl_template_frame_dup (orig_frame : lglTemplateFrame R) : Option (lglTemplateFrame R) :=
  let created : Option (lglTemplateFrame R) :=
    match orig_frame with
    | .rect all w h r xw yw => some (lgl_template_frame_rect_new all.id w h r xw yw)
    | .round all r waste => some (lgl_template_frame_round_new all.id r waste)
    | .cd all r1 r2 w h waste => some (lgl_template_frame_cd_new all.id r1 r2 w h waste)
    | .unknown _ => none
  match created with
  | none => none
  | some frame =>
    let frame := orig_frame.all.layouts.foldl
      (fun frame layout => lgl_template_frame_add_layout frame (lgl_template_layout_dup layout))
      frame
    let frame := orig_frame.all.markups.foldl
      (fun frame markup => lgl_template_frame_add_markup frame (lgl_template_markup_dup markup))
      frame
    some frame

/-- Copy of a template (`lgl_template_dup`); `NULL` for a `NULL` argument.  The aliases
equal to the name (ignoring case) are skipped, the constructor has put the name in. -/
def lgl_template_dup (orig_template : Option (lglTemplate R)) : Option (lglTemplate R) :=
  match orig_template with
  | none => none
  | some orig_template =>
    let template := lgl_template_new orig_template.name orig_template.description
      orig_template.page_size orig_template.page_width orig_template.page_height
    let template := orig_template.categories.foldl
      (fun template category => lgl_template_add_category template (some category)) template
    let template := orig_template.frames.foldl
      (fun template frame => lgl_template_add_frame template (lgl_template_frame_dup frame))
      template
    let template := orig_template.aliases.foldl
      (fun template alias_name =>
        if g_strcasecmp template.name alias_name ≠ 0 then lgl_template_add_alias template (some alias_name)
        else template)
      template
    some template

/-! ## Registry -/

/-- What the module takes from the rest of the library and from the system: the data
directory macros of `libglabels-private.h`, the paper module (`paper.h`), the
directory and file readers, and the translated name format of the full-page
templates.  `g_dir_open` gives the file names in the order of `g_dir_read_name`, or
the message of the error.  The answers are the same at every call. -/
structure Env (R : Type) where
  LGL_SYSTEM_DATA_DIR : String
  LGL_USER_DATA_DIR : String
  g_build_filename : String → String → String
  g_file_test_exists : String → Bool
  g_dir_open : String → Except String (List String)
  lgl_xml_template_read_templates_from_file : String → List (lglTemplate R)
  lgl_paper_get_id_list : List String
  lgl_paper_is_id_other : String → Bool
  lgl_paper_is_id_known : String → Bool
  lgl_paper_from_id : String → Option (lglPaper R)
  generic_full_page_name : String → String

/-- The state of the module and what it has done to the outside: the global list
`templates` (an entry is a pointer, `none` is `NULL`), the calls of
`lgl_xml_template_write_template_to_file`, the calls of `mkdir` and the texts given
to `g_message` and `g_critical`, each in call order. -/
structure State (R : Type) where
  templates : List (Option (lglTemplate R))
  written : List (lglTemplate R × String)
  dirs : List String
  messages : List String
deriving DecidableEq, Repr

/-- The constant `FULL_PAGE`. -/
def FULL_PAGE : String := "Full-page"

/-- C's `strrchr` on a list of characters: the part from the last `c` on. -/
def strrchr_chars : List Char → Char → Option (List Char)
  | [], _ => none
  | a :: rest, c =>
    match strrchr_chars rest c with
    | some found => some found
    | none => if a = c then some (a :: rest) else none

/-- C's `strrchr`. -/
def strrchr (s : String) (c : Char) : Option String :=
  (strrchr_chars s.toList c).map String.mk

/-- Template for a full page of the given size (`template_full_page`); `NULL` when the
paper is not found.  The C code adds the frame to the template first and the layout
and the markup to the frame afterwards; the template holds the pointer to the frame,
so it ends up with the completed frame. -/
def template_full_page (env : Env R) (page_size : String) : Option (lglTemplate R) :=
  match env.lgl_paper_from_id page_size with
  | none => none
  | some paper =>
    let name := env.generic_full_page_name page_size
    let template := lgl_template_new name FULL_PAGE page_size paper.width paper.height
    let frame := lgl_template_frame_rect_new "0" paper.width paper.height 0 0 0
    let frame := lgl_template_frame_add_layout frame (lgl_template_layout_new 1 1 0 0 0 0)
    let frame := lgl_template_frame_add_markup frame (lgl_template_markup_margin_new 9)
    some (lgl_template_add_frame template (some frame))

/-- Reads all template files of a directory and appends them
(`read_template_files_from_dir`); the second component collects the `g_message` texts. -/
def read_template_files_from_dir (env : Env R)
    (acc : List (Option (lglTemplate R)) × List String) (dirname : Option String) :
    List (Option (lglTemplate R)) × List String :=
  match dirname with
  | none => acc
  | some dirname =>
    if !env.g_file_test_exists dirname then acc
    else
      match env.g_dir_open dirname with
      | .error message => (acc.1, acc.2 ++ ["cannot open data directory: " ++ message])
      | .ok filenames =>
        (filenames.foldl (fun templates filename =>
          let extension := strrchr filename '.'
          let extension2 := strrchr filename '-'
          if (extension.any (fun e => g_strcasecmp e ".template" == 0)) ||
             (extension2.any (fun e => g_strcasecmp e "-templates.xml" == 0)) then
            templates ++ (env.lgl_xml_template_read_templates_from_file
              (env.g_build_filename dirname filename)).map some
          else templates) acc.1, acc.2)

/-- Reads the templates of the system and of the user directory (`read_templates`). -/
def read_templates (env : Env R) : List (Option (lglTemplate R)) × List String :=
  let acc := read_template_files_from_dir env ([], []) (some env.LGL_SYSTEM_DATA_DIR)
  let acc := read_template_files_from_dir env acc (some env.LGL_USER_DATA_DIR)
  if acc.1 = [] then
    (acc.1, acc.2 ++
      ["Unable to locate any template files.  Libglabels may not be installed correctly!"])
  else acc

/-- Initialises the module (`lgl_template_init`): nothing when `templates` is not
empty, else the templates read from the files followed by one full-page template for
each paper id that is not the "Other" id. -/
def lgl_template_init (env : Env R) (s : State R) : State R :=
  if s.templates ≠ [] then s
  else
    let read := read_templates env
    let templates := env.lgl_paper_get_id_list.foldl
      (fun templates id =>
        if !env.lgl_paper_is_id_other id then templates ++ [template_full_page env id]
        else templates)
      read.1
    { s with templates := templates, messages := s.messages ++ read.2 }

/-- The two loops of `lgl_template_register` over the templates and their aliases:
`some true` when an alias equals `name` ignoring case (the early `return`),
`some false` when the loops end, `none` when a `NULL` entry is dereferenced. -/
def register_scan (name : String) : List (Option (lglTemplate R)) → Option Bool
  | [] => some false
  | none :: _ => none
  | some template1 :: rest =>
    if template1.aliases.any (fun alias_name => g_strcasecmp name alias_name == 0) then some true
    else register_scan name rest

/-- Registers a template (`lgl_template_register`). -/
def lgl_template_register (env : Env R) (s : State R) (template : lglTemplate R) :
    Option (State R) :=
  let s := if s.templates = [] then lgl_template_init env s else s
  match register_scan template.name s.templates with
  | none => none
  | some true => some s
  | some false =>
    if env.lgl_paper_is_id_known template.page_size then
      let dir := env.LGL_USER_DATA_DIR
      let filename := template.name ++ ".template"
      let abs_filename := env.g_build_filename dir filename
      some { s with
        templates := s.templates ++ [lgl_template_dup (some template)],
        dirs := s.dirs ++ [dir],
        written := s.written ++ [(template, abs_filename)] }
    else
      some { s with
        messages := s.messages ++ ["Cannot register new template with unknown page size."] }

/-- The two loops of `lgl_template_from_name` over the templates and their aliases:
`some (some t)` for the first template with an alias equal to `name` ignoring case,
`some none` when the loops end, `none` when a `NULL` entry is dereferenced. -/
def from_name_scan (name : String) :
    List (Option (lglTemplate R)) → Option (Option (lglTemplate R))
  | [] => some none
  | none :: _ => none
  | some template :: rest =>
    if template.aliases.any (fun alias_name => g_strcasecmp alias_name name == 0) then some (some template)
    else from_name_scan name rest

/-- The expression `lgl_template_dup (templates->data)`; there is no `data` to read
when `templates` is `NULL`. -/
def dup_first (templates : List (Option (lglTemplate R))) : Option (Option (lglTemplate R)) :=
  match templates with
  | [] => none
  | first :: _ => some (lgl_template_dup first)

/-- Looks a template up by name (`lgl_template_from_name`): the returned pointer and
the state after the call. -/
def lgl_template_from_name (env : Env R) (s : State R) (name : Option String) :
    Option (Option (lglTemplate R) × State R) :=
  let s := if s.templates = [] then lgl_template_init env s else s
  match name with
  | none => (dup_first s.templates).map (fun r => (r, s))
  | some name =>
    match from_name_scan name s.templates with
    | none => none
    | some (some template) => some (lgl_template_dup (some template), s)
    | some none => (dup_first s.templates).map (fun r => (r, s))

/-- Does the page size of the template match (`lgl_template_does_page_size_match`):
`FALSE` for a `NULL` template, `TRUE` for a `NULL` page size. -/
def lgl_template_does_page_size_match (template : Option (lglTemplate R))
    (page_size : Option String) : Bool :=
  match template with
  | none => false
  | some template =>
    match page_size with
    | none => true
    | some page_size => g_strcasecmp page_size template.page_size == 0

/-- Does the template belong to the category (`lgl_template_does_category_match`):
`FALSE` for a `NULL` template, `TRUE` for a `NULL` category. -/
def lgl_template_does_category_match (template : Option (lglTemplate R))
    (category : Option String) : Bool :=
  match template with
  | none => false
  | some template =>
    match category with
    | none => true
    | some category => template.categories.any (fun c => g_strcasecmp category c == 0)

/-- List of the names of the templates that match both filters
(`lgl_template_get_name_list_unique`): the returned list and the state after the
call.  A `NULL` entry matches no filter, so its name is never read. -/
def lgl_template_get_name_list_unique (env : Env R) (s : State R)
    (page_size category : Option String) : List String × State R :=
  let s := if s.templates = [] then lgl_template_init env s else s
  (s.templates.foldl (fun names template =>
      if lgl_template_does_page_size_match template page_size &&
         lgl_template_does_category_match template category then
        match template with
        | some template => g_list_insert_sorted names template.name g_strcasecmp
        | none => names
      else names) [], s)

/-- List of the names and aliases of the templates that match both filters
(`lgl_template_get_name_list_all`): the returned list and the state after the call. -/
def lgl_template_get_name_list_all (env : Env R) (s : State R)
    (page_size category : Option String) : List String × State R :=
  let s := if s.templates = [] then lgl_template_init env s else s
  (s.templates.foldl (fun names template =>
      if lgl_template_does_page_size_match template page_size &&
         lgl_template_does_category_match template category then
        match template with
        | some template =>
          template.aliases.foldl
            (fun names p_alias => g_list_insert_sorted names p_alias g_strcasecmp) names
        | none => names
      else names) [], s)

/-- The state in which a query runs: `lgl_template_init` is called first when
`templates` is empty. -/
def ensure_init (env : Env R) (s : State R) : State R :=
  if s.templates = [] then lgl_template_init env s else s

/-- The templates of a registry that match both filters, in registration order. -/
def matching_templates (templates : List (Option (lglTemplate R)))
    (page_size category : Option String) : List (lglTemplate R) :=
  (templates.filterMap id).filter (fun t =>
    lgl_template_does_page_size_match (some t) page_size &&
    lgl_template_does_category_match (some t) category)

/-- Is the shape tag of the frame one of `LGL_TEMPLATE_FRAME_SHAPE_RECT`, `..._ROUND`,
`..._CD`. -/
def shape_known : lglTemplateFrame R → Bool
  | .unknown _ => false
  | _ => true

/-- The alias invariant of the data model: the alias list is not empty and its first
element is the name. -/
def alias_invariant (t : lglTemplate R) : Prop :=
  t.aliases.head? = some t.name

/-- A well-formed template: the alias list starts with the name, no other alias equals
the name ignoring case, and every frame has one of the three shapes. -/
def well_formed (t : lglTemplate R) : Prop :=
  t.aliases.head? = some t.name ∧
  (∀ alias_name ∈ t.aliases.tail, g_strcasecmp t.name alias_name ≠ 0) ∧
  (∀ frame ∈ t.frames, shape_known frame = true)

/-- The frame of the full-page template of a paper, as the specification describes it:
a rectangle of the size of the page without corner radius and waste, one layout of one
label at the origin, one margin markup of 9 points. -/
def full_page_frame (paper : lglPaper R) : lglTemplateFrame R :=
  .rect { id := "0",
          layouts := [{ nx := 1, ny := 1, x0 := 0, y0 := 0, dx := 0, dy := 0 }],
          markups := [.margin 9] }
    paper.width paper.height 0 0 0

/-- A registry is initialised when `lgl_template_init` has nothing left to load: its
list is not empty, or the files and the paper list yield no template. -/
def initialized (env : Env R) (s : State R) : Prop :=
  (lgl_template_init env s).templates = s.templates

/-- The first template, in registration order, with an alias equal to `name`
ignoring case. -/
def first_with_alias (name : String) (ts : List (lglTemplate R)) : Option (lglTemplate R) :=
  ts.find? (fun t => t.aliases.any (fun alias_name => g_strcasecmp alias_name name == 0))

/-- The values stored by the fill loops for one layout, in the order of the stores. -/
def layout_stores (layout : lglTemplateLayout R) : List (lglTemplateOrigin R) :=
  (List.range layout.ny.toNat).flatMap (fun (iy : Nat) =>
    (List.range layout.nx.toNat).map (fun (ix : Nat) =>
      { x := (ix : R) * layout.dx + layout.x0, y := (iy : R) * layout.dy + layout.y0 }))

/-! ## Concrete data -/

/-- The layout of the example of the specification, in a rectangular frame. -/
def exFrame : lglTemplateFrame Int :=
  .rect { id := "0", layouts := [lgl_template_layout_new 2 2 10 10 100 150], markups := [] }
    50 50 0 0 0

/-- A frame whose only layout has a negative column count. -/
def negFrame : lglTemplateFrame Int :=
  .rect { id := "0", layouts := [lgl_template_layout_new (-1) 1 10 10 100 150], markups := [] }
    50 50 0 0 0

/-- A frame whose only layout has 65536 columns and 65536 rows. -/
def bigFrame : lglTemplateFrame Int :=
  .rect { id := "0", layouts := [lgl_template_layout_new 65536 65536 0 0 1 1], markups := [] }
    1 1 0 0 0

/-- A round frame with two layouts, the second one shifted by half a pitch. -/
def twoLayoutFrame : lglTemplateFrame Int :=
  .round { id := "0",
           layouts := [lgl_template_layout_new 2 2 0 0 40 40,
                       lgl_template_layout_new 1 2 20 20 40 40],
           markups := [] } 10 0

/-- The frame `twoLayoutFrame` with its two layouts in the other order. -/
def twoLayoutFrameSwapped : lglTemplateFrame Int :=
  .round { id := "0",
           layouts := [lgl_template_layout_new 1 2 20 20 40 40,
                       lgl_template_layout_new 2 2 0 0 40 40],
           markups := [] } 10 0

/-- A frame without layouts. -/
def emptyFrame : lglTemplateFrame Int :=
  .cd { id := "0", layouts := [], markups := [] } 100 20 0 0 5

/-- An environment with one known paper size and no template files. -/
def exEnv : Env Int :=
  { LGL_SYSTEM_DATA_DIR := "/usr/share/libglabels/templates"
    LGL_USER_DATA_DIR := "/home/user/.glabels"
    g_build_filename := fun dir file => dir ++ "/" ++ file
    g_file_test_exists := fun _ => false
    g_dir_open := fun _ => .ok []
    lgl_xml_template_read_templates_from_file := fun _ => []
    lgl_paper_get_id_list := ["A4", "Other"]
    lgl_paper_is_id_other := fun id => g_strcasecmp id "Other" == 0
    lgl_paper_is_id_known := fun id => g_strcasecmp id "A4" == 0
    lgl_paper_from_id := fun id =>
      if g_strcasecmp id "A4" == 0 then
        some { id := "A4", name := "A4", width := 595, height := 842 }
      else none
    generic_full_page_name := fun id => "Generic " ++ id ++ " full page" }

/-- A template with one alias besides its name. -/
def exTemplateA : lglTemplate Int :=
  { name := "Avery 5160", description := "Address labels", page_size := "US-Letter",
    page_width := 0, page_height := 0,
    aliases := ["Avery 5160", "Avery 5260"], categories := ["label"],
    frames := [exFrame] }

/-- A second template, which also answers to the alias `Avery 5260`. -/
def exTemplateB : lglTemplate Int :=
  { name := "Generic CD", description := "CD labels", page_size := "A4",
    page_width := 0, page_height := 0,
    aliases := ["Generic CD", "Avery 5260"], categories := ["media"],
    frames := [emptyFrame] }

/-- A template to register whose name is an alias of `exTemplateA` in another case. -/
def exTemplateKnownName : lglTemplate Int :=
  { name := "AVERY 5260", description := "Other content", page_size := "A4",
    page_width := 0, page_height := 0,
    aliases := ["AVERY 5260"], categories := [], frames := [] }

/-- A template to register with a new name and a page size that is not known. -/
def exTemplateUnknownPage : lglTemplate Int :=
  { name := "Home made", description := "Odd paper", page_size := "Foolscap",
    page_width := 0, page_height := 0,
    aliases := ["Home made"], categories := [], frames := [exFrame] }

/-- A registry holding `exTemplateA` and `exTemplateB`. -/
def exState : State Int :=
  { templates := [exTemplateA, exTemplateB].map some, written := [], dirs := [], messages := [] }

/-- A template to register with a new name and a known page size. -/
def exTemplateNew : lglTemplate Int :=
  { name := "Home made", description := "My labels", page_size := "a4",
    page_width := 0, page_height := 0,
    aliases := ["Home made", "home MADE", "Workshop"], categories := ["label"],
    frames := [exFrame] }

/-- An environment in which the system directory and the user directory each hold one
template file, and both files define a template named `Avery 5160`. -/
def dupEnv : Env Int :=
  { LGL_SYSTEM_DATA_DIR := "/usr/share/libglabels/templates"
    LGL_USER_DATA_DIR := "/home/user/.glabels"
    g_build_filename := fun dir file => dir ++ "/" ++ file
    g_file_test_exists := fun _ => true
    g_dir_open := fun dir =>
      if dir == "/home/user/.glabels" then .ok ["Avery 5160.template", "notes.txt"]
      else .ok ["avery-us-templates.xml"]
    lgl_xml_template_read_templates_from_file := fun _ => [exTemplateA]
    lgl_paper_get_id_list := ["A4", "Other"]
    lgl_paper_is_id_other := fun id => g_strcasecmp id "Other" == 0
    lgl_paper_is_id_known := fun id => g_strcasecmp id "A4" == 0
    lgl_paper_from_id := fun id =>
      if g_strcasecmp id "A4" == 0 then
        some { id := "A4", name := "A4", width := 595, height := 842 }
      else none
    generic_full_page_name := fun id => "Generic " ++ id ++ " full page" }

/-- The state of the module before its first use. -/
def emptyState : State Int :=
  { templates := [], written := [], dirs := [], messages := [] }

/-- A template with a frame whose shape tag is none of the three shapes, between two
frames of known shape. -/
def exTemplateOddFrame : lglTemplate Int :=
  { name := "Odd", description := "Frame of no known shape", page_size := "A4",
    page_width := 0, page_height := 0,
    aliases := ["Odd"], categories := [],
    frames := [exFrame, .unknown { id := "1", layouts := [], markups := [] }, emptyFrame] }

/-- A template whose alias list has its name twice, and not in first position. -/
def exTemplateNameTwice : lglTemplate Int :=
  { name := "Avery 5160", description := "Address labels", page_size := "US-Letter",
    page_width := 0, page_height := 0,
    aliases := ["Avery 5260", "Avery 5160", "AVERY 5160", "Avery 5160"],
    categories := ["label", "mail"], frames := [twoLayoutFrame] }

/-! ## Properties of the geometry engine -/

section Geometry

theorem compare_origins_le_iff (a b : lglTemplateOrigin R) :
    compare_origins a b ≤ 0 ↔ origin_le a b := by
  unfold compare_origins origin_le
  split_ifs with h1 h2 h3 h4
  · simp [h1]
  · have : ¬ a.y = b.y := fun h => by rw [h] at h2; exact lt_irrefl _ h2
    simp [h1, this]
  · have hy : a.y = b.y := le_antisymm (not_lt.mp h2) (not_lt.mp h1)
    simp [hy, le_of_lt h3]
  · have hy : a.y = b.y := le_antisymm (not_lt.mp h2) (not_lt.mp h1)
    simp [hy, not_le.mpr h4]
  · have hy : a.y = b.y := le_antisymm (not_lt.mp h2) (not_lt.mp h1)
    simp [hy, not_lt.mp h4]

theorem origin_le_total (a b : lglTemplateOrigin R) : origin_le a b ∨ origin_le b a := by
  unfold origin_le
  rcases lt_trichotomy a.y b.y with h | h | h
  · exact Or.inl (Or.inl h)
  · rcases le_total a.x b.x with hx | hx
    · exact Or.inl (Or.inr ⟨h, hx⟩)
    · exact Or.inr (Or.inr ⟨h.symm, hx⟩)
  · exact Or.inr (Or.inl h)

theorem origin_le_trans {a b c : lglTemplateOrigin R} (hab : origin_le a b)
    (hbc : origin_le b c) : origin_le a c := by
  unfold origin_le at *
  rcases hab with h | ⟨h, hx⟩
  · rcases hbc with h2 | ⟨h2, _⟩
    · exact Or.inl (lt_trans h h2)
    · exact Or.inl (h2 ▸ h)
  · rcases hbc with h2 | ⟨h2, hx2⟩
    · exact Or.inl (h ▸ h2)
    · exact Or.inr ⟨h.trans h2, le_trans hx hx2⟩

theorem origin_le_antisymm {a b : lglTemplateOrigin R} (hab : origin_le a b)
    (hba : origin_le b a) : a = b := by
  unfold origin_le at *
  cases a with
  | mk ax ay =>
    cases b with
    | mk bx b_y =>
      simp only at hab hba
      rcases hab with h | ⟨h, hx⟩
      · rcases hba with h2 | ⟨h2, _⟩
        · exact absurd h (lt_asymm h2)
        · exact absurd h (by rw [h2]; exact lt_irrefl _)
      · rcases hba with h2 | ⟨_, hx2⟩
        · exact absurd h2 (by rw [h]; exact lt_irrefl _)
        · rw [h, le_antisymm hx hx2]

instance compare_origins_total :
    IsTotal (lglTemplateOrigin R) (fun a b => compare_origins a b ≤ 0) :=
  ⟨fun a b => by
    simp only [compare_origins_le_iff]
    exact origin_le_total a b⟩

instance compare_origins_trans :
    IsTrans (lglTemplateOrigin R) (fun a b => compare_origins a b ≤ 0) :=
  ⟨fun a b c => by
    simp only [compare_origins_le_iff]
    exact origin_le_trans⟩

instance compare_origins_antisymm :
    IsAntisymm (lglTemplateOrigin R) (fun a b => compare_origins a b ≤ 0) :=
  ⟨fun a b => by
    simp only [compare_origins_le_iff]
    exact origin_le_antisymm⟩

theorem g_qsort_with_data_sorted (l : List (lglTemplateOrigin R)) :
    List.Sorted (fun a b => compare_origins a b ≤ 0) (g_qsort_with_data l compare_origins) :=
  List.sorted_insertionSort _ l

theorem g_qsort_with_data_perm (l : List (lglTemplateOrigin R)) :
    (g_qsort_with_data l compare_origins).Perm l :=
  List.perm_insertionSort _ l

theorem g_qsort_with_data_congr {l1 l2 : List (lglTemplateOrigin R)} (h : l1.Perm l2) :
    g_qsort_with_data l1 compare_origins = g_qsort_with_data l2 compare_origins :=
  List.eq_of_perm_of_sorted
    (((g_qsort_with_data_perm l1).trans h).trans (g_qsort_with_data_perm l2).symm)
    (g_qsort_with_data_sorted l1) (g_qsort_with_data_sorted l2)

/-- The result of the sort does not depend on the sorting algorithm: a sorted
permutation of the array is the result of `g_qsort_with_data`. -/
theorem g_qsort_with_data_unique {l sorted : List (lglTemplateOrigin R)}
    (hp : sorted.Perm l) (hs : List.Sorted (fun a b => compare_origins a b ≤ 0) sorted) :
    g_qsort_with_data l compare_origins = sorted :=
  List.eq_of_perm_of_sorted ((g_qsort_with_data_perm l).trans hp.symm)
    (g_qsort_with_data_sorted l) hs

/-- Storing a list of values one after the other from index `pre.length` on. -/
theorem foldlM_origins_store (ws pre rest : List (lglTemplateOrigin R)) :
    ws.foldlM origins_store (pre ++ rest, pre.length)
      = if ws.length ≤ rest.length
        then some (pre ++ ws ++ rest.drop ws.length, pre.length + ws.length)
        else none := by
  induction ws generalizing pre rest with
  | nil => simp
  | cons w ws ih =>
    cases rest with
    | nil => simp [origins_store]
    | cons r rest =>
      have hstore : origins_store (pre ++ r :: rest, pre.length) w
          = some ((pre ++ [w]) ++ rest, (pre ++ [w]).length) := by
        simp [origins_store]
      rw [List.foldlM_cons, hstore, Option.bind_eq_bind, Option.some_bind, ih]
      have harith : pre.length + 1 + ws.length = pre.length + (ws.length + 1) := by omega
      simp [harith]

theorem foldlM_flatMap_option {α β σ : Type} (f : α → List β) (g : σ → β → Option σ)
    (l : List α) (st : σ) :
    l.foldlM (fun st a => (f a).foldlM g st) st = (l.flatMap f).foldlM g st := by
  induction l generalizing st with
  | nil => simp
  | cons a l ih =>
    simp only [List.foldlM_cons, List.flatMap_cons, List.foldlM_append]
    congr 1
    funext st2
    exact ih st2

theorem origins_fill_layout_eq (layout : lglTemplateLayout R)
    (st : List (lglTemplateOrigin R) × Nat) :
    origins_fill_layout layout st = (layout_stores layout).foldlM origins_store st := by
  unfold origins_fill_layout layout_stores
  rw [← foldlM_flatMap_option]
  congr 1
  funext st2 iy
  rw [List.foldlM_map]

/-- The values stored by the fill loops are the points of the grid of the specification. -/
theorem layout_stores_eq_grid (layout : lglTemplateLayout R) :
    layout_stores layout = layout_grid layout := by
  unfold layout_stores layout_grid
  congr 1
  funext iy
  congr 1
  funext ix
  rw [add_comm ((ix : R) * layout.dx), add_comm ((iy : R) * layout.dy)]

/-- The fill loops and the sort in closed form. -/
theorem get_origins_eq (frame : lglTemplateFrame R) :
    lgl_template_frame_get_origins frame =
      if lgl_template_frame_get_n_labels frame < 0 ∨
          (lgl_template_frame_get_n_labels frame).toNat < (frame_grid frame).length
      then none
      else some (g_qsort_with_data
        (frame_grid frame ++ List.replicate
          ((lgl_template_frame_get_n_labels frame).toNat - (frame_grid frame).length)
          { x := 0, y := 0 }) compare_origins) := by
  unfold lgl_template_frame_get_origins
  simp only
  by_cases hneg : lgl_template_frame_get_n_labels frame < 0
  · simp [hneg]
  · have hfill : (fun st layout => origins_fill_layout layout st)
        = (fun (st : List (lglTemplateOrigin R) × Nat) layout =>
            (layout_grid layout).foldlM origins_store st) := by
      funext st layout
      rw [origins_fill_layout_eq, layout_stores_eq_grid]
    rw [hfill, foldlM_flatMap_option]
    unfold frame_grid
    generalize frame.all.layouts.flatMap layout_grid = ws
    generalize (lgl_template_frame_get_n_labels frame).toNat = n
    have h := foldlM_origins_store ws []
      (List.replicate n ({ x := 0, y := 0 } : lglTemplateOrigin R))
    simp only [List.nil_append, List.length_nil, List.length_replicate, Nat.zero_add] at h
    rw [h]
    by_cases hlen : ws.length ≤ n
    · simp [hneg, hlen, not_lt.mpr hlen, List.drop_replicate]
    · simp [hneg, hlen, not_le.mp hlen]

theorem gint_wrap_of_range (n : Int) (hlo : -2147483648 ≤ n) (hhi : n ≤ 2147483647) :
    gint_wrap n = n := by
  unfold gint_wrap
  omega

/-- The label count is the sum of the products `nx * ny`, wrapped into a `gint`. -/
theorem n_labels_eq_wrap_sum (frame : lglTemplateFrame R) :
    lgl_template_frame_get_n_labels frame
      = gint_wrap (frame.all.layouts.map (fun layout => layout.nx * layout.ny)).sum := by
  unfold lgl_template_frame_get_n_labels
  have key : ∀ (l : List (lglTemplateLayout R)) (acc : Int),
      l.foldl (fun n_labels layout =>
          gint_wrap (n_labels + gint_wrap (layout.nx * layout.ny))) (gint_wrap acc)
        = gint_wrap (acc + (l.map (fun layout => layout.nx * layout.ny)).sum) := by
    intro l
    induction l with
    | nil => intro acc; simp
    | cons a l ih =>
      intro acc
      rw [List.foldl_cons, ih, List.map_cons, List.sum_cons]
      generalize a.nx * a.ny = p
      generalize (l.map (fun layout => layout.nx * layout.ny)).sum = rest
      unfold gint_wrap
      omega
  have h0 : gint_wrap 0 = 0 := by decide
  have h := key frame.all.layouts 0
  rw [h0, zero_add] at h
  exact h

/-- The label count is the sum of the products `nx * ny` when that sum is in the range
of a `gint`. -/
theorem n_labels_eq_sum_of_range (frame : lglTemplateFrame R)
    (hlo : -2147483648 ≤ (frame.all.layouts.map (fun layout => layout.nx * layout.ny)).sum)
    (hhi : (frame.all.layouts.map (fun layout => layout.nx * layout.ny)).sum ≤ 2147483647) :
    lgl_template_frame_get_n_labels frame
      = (frame.all.layouts.map (fun layout => layout.nx * layout.ny)).sum := by
  rw [n_labels_eq_wrap_sum, gint_wrap_of_range _ hlo hhi]

theorem layout_grid_length (layout : lglTemplateLayout R) :
    (layout_grid layout).length = layout.ny.toNat * layout.nx.toNat := by
  unfold layout_grid
  generalize layout.ny.toNat = n
  induction n with
  | zero => simp
  | succ n ih =>
    rw [List.range_succ, List.flatMap_append, List.length_append, ih]
    simp [Nat.succ_mul]

theorem frame_grid_length_of_nonneg (frame : lglTemplateFrame R)
    (h : ∀ layout ∈ frame.all.layouts, 0 ≤ layout.nx ∧ 0 ≤ layout.ny) :
    ((frame_grid frame).length : Int)
      = (frame.all.layouts.map (fun layout => layout.nx * layout.ny)).sum := by
  unfold frame_grid
  generalize frame.all.layouts = ls at h
  induction ls with
  | nil => simp
  | cons a ls ih =>
    have ha := h a (List.mem_cons_self _ _)
    have ih2 := ih (fun l hl => h l (List.mem_cons_of_mem _ hl))
    simp only [List.flatMap_cons, List.length_append, List.map_cons, List.sum_cons, Nat.cast_add]
    rw [ih2, layout_grid_length]
    have hx : ((a.nx.toNat : Nat) : Int) = a.nx := Int.toNat_of_nonneg ha.1
    have hy : ((a.ny.toNat : Nat) : Int) = a.ny := Int.toNat_of_nonneg ha.2
    rw [Nat.cast_mul, hx, hy, mul_comm]

/-- On a frame whose counts are all non-negative and whose number of labels fits a
`gint`, the label count is the sum of the products and the number of grid points. -/
theorem n_labels_of_nonneg (frame : lglTemplateFrame R)
    (h : ∀ layout ∈ frame.all.layouts, 0 ≤ layout.nx ∧ 0 ≤ layout.ny)
    (hfit : (frame.all.layouts.map (fun layout => layout.nx * layout.ny)).sum ≤ 2147483647) :
    lgl_template_frame_get_n_labels frame
        = (frame.all.layouts.map (fun layout => layout.nx * layout.ny)).sum ∧
      lgl_template_frame_get_n_labels frame = ((frame_grid frame).length : Int) := by
  have hlen := frame_grid_length_of_nonneg frame h
  have hlo : -2147483648 ≤ (frame.all.layouts.map (fun layout => layout.nx * layout.ny)).sum := by
    rw [← hlen]
    have := Int.natCast_nonneg (frame_grid frame).length
    omega
  have hn := n_labels_eq_sum_of_range frame hlo hfit
  exact ⟨hn, by rw [hn, hlen]⟩

/-- On a frame whose counts are all non-negative and whose number of labels fits a
`gint`, the fill loops store exactly `n_labels` origins, and the result is the sorted
grid. -/
theorem get_origins_of_nonneg (frame : lglTemplateFrame R)
    (h : ∀ layout ∈ frame.all.layouts, 0 ≤ layout.nx ∧ 0 ≤ layout.ny)
    (hfit : (frame.all.layouts.map (fun layout => layout.nx * layout.ny)).sum ≤ 2147483647) :
    lgl_template_frame_get_origins frame
      = some (g_qsort_with_data (frame_grid frame) compare_origins) := by
  have hlen := (n_labels_of_nonneg frame h hfit).2
  have hnn : ¬ lgl_template_frame_get_n_labels frame < 0 := by
    rw [hlen]; exact not_lt.mpr (Int.natCast_nonneg _)
  have hto : (lgl_template_frame_get_n_labels frame).toNat = (frame_grid frame).length := by
    rw [hlen]; exact Int.toNat_natCast _
  rw [get_origins_eq]
  simp [hnn, hto]

theorem get_origins_length (frame : lglTemplateFrame R) (os : List (lglTemplateOrigin R))
    (h : lgl_template_frame_get_origins frame = some os) :
    (os.length : Int) = lgl_template_frame_get_n_labels frame := by
  rw [get_origins_eq] at h
  split_ifs at h with hc
  rw [not_or, not_lt, not_lt] at hc
  injection h with h
  rw [← h, (g_qsort_with_data_perm _).length_eq, List.length_append, List.length_replicate,
    Nat.add_sub_cancel' hc.2]
  exact Int.toNat_of_nonneg hc.1

theorem get_origins_chain (frame : lglTemplateFrame R) (os : List (lglTemplateOrigin R))
    (h : lgl_template_frame_get_origins frame = some os) :
    List.Chain' origin_le os := by
  rw [get_origins_eq] at h
  split_ifs at h with hc
  injection h with h
  rw [← h]
  have hs := (g_qsort_with_data_sorted
    (frame_grid frame ++ List.replicate
      ((lgl_template_frame_get_n_labels frame).toNat - (frame_grid frame).length)
      ({ x := 0, y := 0 } : lglTemplateOrigin R))).chain'
  exact hs.imp (fun a b hab => (compare_origins_le_iff a b).mp hab)

theorem get_origins_perm_congr (f g : lglTemplateFrame R)
    (h : g.all.layouts.Perm f.all.layouts) :
    lgl_template_frame_get_origins g = lgl_template_frame_get_origins f := by
  have hn : lgl_template_frame_get_n_labels g = lgl_template_frame_get_n_labels f := by
    rw [n_labels_eq_wrap_sum, n_labels_eq_wrap_sum, (h.map _).sum_eq]
  have hg : (frame_grid g).Perm (frame_grid f) := by
    unfold frame_grid
    exact h.flatMap_right _
  rw [get_origins_eq, get_origins_eq, hn, hg.length_eq]
  split_ifs with hc
  · rfl
  · congr 1
    exact g_qsort_with_data_congr (hg.append_right _)

end Geometry

/-! ## The claims on the geometry engine -/

/-- C1, as stated, fails: on the frame `negFrame`, whose single layout has `nx = -1`
and `ny = 1`, the label count is `-1` and `lgl_template_frame_get_origins` yields no
array at all, so no number of origins equals the label count. -/
theorem origins_count_fails_on_negative_count :
    lgl_template_frame_get_n_labels negFrame = -1 ∧
    lgl_template_frame_get_origins negFrame = none ∧
    ¬ ∃ os, lgl_template_frame_get_origins negFrame = some os ∧
        (os.length : Int) = lgl_template_frame_get_n_labels negFrame := by
  have hnone : lgl_template_frame_get_origins negFrame = none := by decide
  refine ⟨by decide, hnone, ?_⟩
  rintro ⟨os, hos, _⟩
  rw [hnone] at hos
  cases hos

/-- C1, amended: whenever `lgl_template_frame_get_origins` yields an array, the number
of its origins is `lgl_template_frame_get_n_labels`; on every frame, with any number of
layouts, whose layouts all have `nx ≥ 0` and `ny ≥ 0` and whose sum of `nx * ny` does
not exceed the largest `gint`, 2147483647, it does yield an array, and the number of
origins and the label count are that sum. -/
theorem origins_count_eq_n_labels (frame : lglTemplateFrame R) :
    (∀ os, lgl_template_frame_get_origins frame = some os →
      (os.length : Int) = lgl_template_frame_get_n_labels frame) ∧
    ((∀ layout ∈ frame.all.layouts, 0 ≤ layout.nx ∧ 0 ≤ layout.ny) →
      (frame.all.layouts.map (fun layout => layout.nx * layout.ny)).sum ≤ 2147483647 →
      lgl_template_frame_get_n_labels frame
        = (frame.all.layouts.map (fun layout => layout.nx * layout.ny)).sum ∧
      ∃ os, lgl_template_frame_get_origins frame = some os ∧
        (os.length : Int)
          = (frame.all.layouts.map (fun layout => layout.nx * layout.ny)).sum) := by
  refine ⟨fun os h => get_origins_length frame os h, fun h hfit => ?_⟩
  have hn := (n_labels_of_nonneg frame h hfit).1
  refine ⟨hn, _, get_origins_of_nonneg frame h hfit, ?_⟩
  rw [← hn]
  exact get_origins_length frame _ (get_origins_of_nonneg frame h hfit)

/-- Witness of C1 (amended): the frame of the example of the specification has four
origins and label count four. -/
theorem origins_count_eq_n_labels_witness :
    lgl_template_frame_get_n_labels exFrame = 4 ∧
    (∃ os, lgl_template_frame_get_origins exFrame = some os ∧ (os.length : Int) = 4) ∧
    (([⟨10, 10⟩, ⟨110, 10⟩, ⟨10, 160⟩, ⟨110, 160⟩] : List (lglTemplateOrigin Int)).length : Int)
      = lgl_template_frame_get_n_labels exFrame :=
  ⟨((origins_count_eq_n_labels exFrame).2 (by decide) (by decide)).1,
   ((origins_count_eq_n_labels exFrame).2 (by decide) (by decide)).2,
   (origins_count_eq_n_labels exFrame).1 _ (by decide)⟩

/-- C2: for every frame, the array returned by `lgl_template_frame_get_origins` is
sorted by `y` ascending, then `x` ascending: every adjacent pair `(p1, p2)` has
`p1.y < p2.y`, or `p1.y = p2.y` and `p1.x ≤ p2.x`.  (An array is returned on every
frame whose layouts have non-negative counts and whose number of labels fits a
`gint`.) -/
theorem origins_sorted (frame : lglTemplateFrame R) :
    (∀ os, lgl_template_frame_get_origins frame = some os →
      List.Chain' (fun p1 p2 => p1.y < p2.y ∨ (p1.y = p2.y ∧ p1.x ≤ p2.x)) os) ∧
    ((∀ layout ∈ frame.all.layouts, 0 ≤ layout.nx ∧ 0 ≤ layout.ny) →
      (frame.all.layouts.map (fun layout => layout.nx * layout.ny)).sum ≤ 2147483647 →
      ∃ os, lgl_template_frame_get_origins frame = some os) :=
  ⟨fun os h => get_origins_chain frame os h,
   fun h hfit => ⟨_, get_origins_of_nonneg frame h hfit⟩⟩

/-- Witness of C2: the six origins of the frame `twoLayoutFrame`, which come from two
interleaved layouts, are in sorted order. -/
theorem origins_sorted_witness :
    lgl_template_frame_get_origins twoLayoutFrame
      = some [⟨0, 0⟩, ⟨40, 0⟩, ⟨20, 20⟩, ⟨0, 40⟩, ⟨40, 40⟩, ⟨20, 60⟩] ∧
    List.Chain' (fun (p1 p2 : lglTemplateOrigin Int) =>
        p1.y < p2.y ∨ (p1.y = p2.y ∧ p1.x ≤ p2.x))
      [⟨0, 0⟩, ⟨40, 0⟩, ⟨20, 20⟩, ⟨0, 40⟩, ⟨40, 40⟩, ⟨20, 60⟩] ∧
    (∃ os, lgl_template_frame_get_origins twoLayoutFrame = some os) :=
  ⟨by decide, (origins_sorted twoLayoutFrame).1 _ (by decide),
   (origins_sorted twoLayoutFrame).2 (by decide) (by decide)⟩

/-- C3, as stated, fails: the frame `bigFrame` has one layout with `nx = 65536` and
`ny = 65536`, both non-negative; its label count wraps to `0`, the array has no
record, and the first store of the fill loops falls outside it, so
`lgl_template_frame_get_origins` yields no array that could be a permutation of the
4294967296 points of the grid. -/
theorem origins_fail_when_count_wraps :
    (∀ layout ∈ bigFrame.all.layouts, 0 ≤ layout.nx ∧ 0 ≤ layout.ny) ∧
    lgl_template_frame_get_n_labels bigFrame = 0 ∧
    ((frame_grid bigFrame).length : Int) = 4294967296 ∧
    lgl_template_frame_get_origins bigFrame = none ∧
    ¬ ∃ os, lgl_template_frame_get_origins bigFrame = some os ∧
        os.Perm (frame_grid bigFrame) := by
  have hnn : ∀ layout ∈ bigFrame.all.layouts, 0 ≤ layout.nx ∧ 0 ≤ layout.ny := by decide
  have hn : lgl_template_frame_get_n_labels bigFrame = 0 := by decide
  have hlen : ((frame_grid bigFrame).length : Int) = 4294967296 := by
    rw [frame_grid_length_of_nonneg bigFrame hnn]
    decide
  have hnone : lgl_template_frame_get_origins bigFrame = none := by
    have hpos : (0 : Int).toNat < (frame_grid bigFrame).length := by
      have h0 : (0 : Int).toNat = 0 := rfl
      rw [h0]
      omega
    rw [get_origins_eq, hn]
    exact if_pos (Or.inr hpos)
  refine ⟨hnn, hn, hlen, hnone, ?_⟩
  rintro ⟨os, hos, _⟩
  rw [hnone] at hos
  cases hos

/-- C3, amended: for every frame whose layouts all have `nx ≥ 0` and `ny ≥ 0` and whose
sum of `nx * ny` does not exceed the largest `gint`, 2147483647, the array of
`lgl_template_frame_get_origins` is a permutation of the concatenation, layout by
layout, of the points `{x = x0 + ix*dx, y = y0 + iy*dy}` for `iy` in `[0, ny)` (outer)
and `ix` in `[0, nx)` (inner); and the layout `nx=2, ny=2, x0=10, y0=10, dx=100,
dy=150` yields `{10,10}, {110,10}, {10,160}, {110,160}` in that order. -/
theorem origins_perm_grid :
    (∀ frame : lglTemplateFrame R,
      (∀ layout ∈ frame.all.layouts, 0 ≤ layout.nx ∧ 0 ≤ layout.ny) →
      (frame.all.layouts.map (fun layout => layout.nx * layout.ny)).sum ≤ 2147483647 →
      ∃ os, lgl_template_frame_get_origins frame = some os ∧ os.Perm (frame_grid frame)) ∧
    lgl_template_frame_get_origins exFrame
      = some [⟨10, 10⟩, ⟨110, 10⟩, ⟨10, 160⟩, ⟨110, 160⟩] :=
  ⟨fun frame h hfit => ⟨_, get_origins_of_nonneg frame h hfit, g_qsort_with_data_perm _⟩,
   by decide⟩

/-- Witness of C3 (amended): on `twoLayoutFrame` the origins are a permutation of the
grid of the first layout followed by the grid of the second one. -/
theorem origins_perm_grid_witness :
    ∃ os, lgl_template_frame_get_origins twoLayoutFrame = some os ∧
      os.Perm [⟨0, 0⟩, ⟨40, 0⟩, ⟨0, 40⟩, ⟨40, 40⟩, ⟨20, 20⟩, ⟨20, 60⟩] :=
  (@origins_perm_grid Int _).1 twoLayoutFrame (by decide) (by decide)

/-- C4: the origins do not depend on the order of the layouts of a frame: two frames
whose layout lists are permutations of each other have the same result of
`lgl_template_frame_get_origins`, element for element. -/
theorem origins_layout_order_irrelevant (f g : lglTemplateFrame R)
    (h : g.all.layouts.Perm f.all.layouts) :
    lgl_template_frame_get_origins g = lgl_template_frame_get_origins f :=
  get_origins_perm_congr f g h

/-- Witness of C4: swapping the two layouts of `twoLayoutFrame` gives the same origins. -/
theorem origins_layout_order_irrelevant_witness :
    lgl_template_frame_get_origins twoLayoutFrameSwapped
      = lgl_template_frame_get_origins twoLayoutFrame :=
  origins_layout_order_irrelevant twoLayoutFrame twoLayoutFrameSwapped
    (List.Perm.swap _ _ [])

/-- C5, as stated, fails: on the frame `bigFrame`, whose single layout has `nx = 65536`
and `ny = 65536`, the sum of `nx * ny` is 4294967296 and
`lgl_template_frame_get_n_labels` is `0`. -/
theorem n_labels_wraps :
    lgl_template_frame_get_n_labels bigFrame = 0 ∧
    (bigFrame.all.layouts.map (fun layout => layout.nx * layout.ny)).sum = 4294967296 ∧
    lgl_template_frame_get_n_labels bigFrame
      ≠ (bigFrame.all.layouts.map (fun layout => layout.nx * layout.ny)).sum := by
  decide

/-- C5, amended: `lgl_template_frame_get_n_labels` is the sum of `nx * ny` over the
layouts of the frame wrapped into the 32 bits of a `gint`; it is that sum itself
whenever the sum lies in the range of a `gint`, from -2147483648 to 2147483647; and it
is `0` for a frame without layouts. -/
theorem n_labels_sum (frame : lglTemplateFrame R) :
    lgl_template_frame_get_n_labels frame
      = gint_wrap (frame.all.layouts.map (fun layout => layout.nx * layout.ny)).sum ∧
    (-2147483648 ≤ (frame.all.layouts.map (fun layout => layout.nx * layout.ny)).sum →
      (frame.all.layouts.map (fun layout => layout.nx * layout.ny)).sum ≤ 2147483647 →
      lgl_template_frame_get_n_labels frame
        = (frame.all.layouts.map (fun layout => layout.nx * layout.ny)).sum) ∧
    (frame.all.layouts = [] → lgl_template_frame_get_n_labels frame = 0) := by
  refine ⟨n_labels_eq_wrap_sum frame, n_labels_eq_sum_of_range frame, fun h => ?_⟩
  rw [n_labels_eq_wrap_sum, h, List.map_nil, List.sum_nil]
  decide

/-- Witness of C5 (amended): six labels on `twoLayoutFrame`, none on `emptyFrame`. -/
theorem n_labels_sum_witness :
    lgl_template_frame_get_n_labels twoLayoutFrame = 2 * 2 + (1 * 2 + 0) ∧
    lgl_template_frame_get_n_labels emptyFrame = 0 :=
  ⟨(n_labels_sum twoLayoutFrame).2.1 (by decide) (by decide),
   (n_labels_sum emptyFrame).2.2 rfl⟩

/-- C6: `lgl_template_frame_get_size` gives `(w, h)` for a rectangular frame,
`(2r, 2r)` for a round frame, for a CD frame the width `w` if `w ≠ 0` else `2*r1` and
the height `h` if `h ≠ 0` else `2*r1`, each axis on its own (so `w=0, h=0` gives
`(2*r1, 2*r1)` and `w=5, h=0` gives `(5, 2*r1)`), and `(0, 0)` for any other shape. -/
theorem frame_get_size_by_shape :
    (∀ (all : lglTemplateFrameAll R) (w h r x_waste y_waste : R),
      lgl_template_frame_get_size (.rect all w h r x_waste y_waste) = (w, h)) ∧
    (∀ (all : lglTemplateFrameAll R) (r waste : R),
      lgl_template_frame_get_size (.round all r waste) = (2 * r, 2 * r)) ∧
    (∀ (all : lglTemplateFrameAll R) (r1 r2 w h waste : R),
      lgl_template_frame_get_size (.cd all r1 r2 w h waste)
        = ((if w ≠ 0 then w else 2 * r1), (if h ≠ 0 then h else 2 * r1))) ∧
    (∀ (all : lglTemplateFrameAll R) (r1 r2 waste : R),
      lgl_template_frame_get_size (.cd all r1 r2 0 0 waste) = (2 * r1, 2 * r1)) ∧
    (∀ (all : lglTemplateFrameAll R) (r1 r2 waste : R),
      lgl_template_frame_get_size (.cd all r1 r2 5 0 waste) = (5, 2 * r1)) ∧
    (∀ (all : lglTemplateFrameAll R),
      lgl_template_frame_get_size (.unknown all) = (0, 0)) := by
  refine ⟨fun _ _ _ _ _ _ => rfl, fun _ _ _ => rfl, ?_, ?_, ?_, fun _ => rfl⟩
  · intro all r1 r2 w h waste
    simp only [lgl_template_frame_get_size, ne_eq, ite_not]
  · intro all r1 r2 waste
    simp [lgl_template_frame_get_size]
  · intro all r1 r2 waste
    have h5 : (5 : R) ≠ 0 := by norm_num
    simp [lgl_template_frame_get_size, h5]


/-! ## Properties of the registry -/

section Registry

theorem from_name_scan_map_some (name : String) (ts : List (lglTemplate R)) :
    from_name_scan name (ts.map some) = some (first_with_alias name ts) := by
  induction ts with
  | nil => rfl
  | cons t ts ih =>
    unfold first_with_alias at *
    by_cases h : t.aliases.any (fun alias_name => g_strcasecmp alias_name name == 0) = true
    · simp [from_name_scan, List.find?_cons, h]
    · simp only [Bool.not_eq_true] at h
      simp only [List.map_cons, from_name_scan, h, List.find?_cons, Bool.false_eq_true, if_false]
      exact ih

theorem register_scan_map_some (name : String) (ts : List (lglTemplate R)) :
    register_scan name (ts.map some)
      = some (ts.any (fun t => t.aliases.any (fun alias_name => g_strcasecmp name alias_name == 0))) := by
  induction ts with
  | nil => rfl
  | cons t ts ih =>
    by_cases h : t.aliases.any (fun alias_name => g_strcasecmp name alias_name == 0) = true
    · simp [register_scan, h]
    · simp only [Bool.not_eq_true] at h
      simp only [List.map_cons, register_scan, h, List.any_cons, Bool.false_or, Bool.false_eq_true,
        if_false]
      exact ih

theorem init_of_ne_nil (env : Env R) (s : State R) (h : s.templates ≠ []) :
    lgl_template_init env s = s := by
  unfold lgl_template_init
  rw [if_pos h]

theorem init_written (env : Env R) (s : State R) :
    (lgl_template_init env s).written = s.written ∧ (lgl_template_init env s).dirs = s.dirs := by
  unfold lgl_template_init
  split_ifs <;> exact ⟨rfl, rfl⟩

/-- After `lgl_template_init` the registry is initialised. -/
theorem initialized_init (env : Env R) (s : State R) :
    initialized env (lgl_template_init env s) := by
  unfold initialized
  by_cases h : s.templates ≠ []
  · rw [init_of_ne_nil env s h, init_of_ne_nil env s h]
  · by_cases h2 : (lgl_template_init env s).templates ≠ []
    · rw [init_of_ne_nil env _ h2]
    · rw [not_not] at h h2
      have : (lgl_template_init env (lgl_template_init env s)).templates
          = (lgl_template_init env s).templates := by
        unfold lgl_template_init at h2 ⊢
        simp only [h, ne_eq, not_true_eq_false, if_false] at h2 ⊢
        simp only [h2, not_true_eq_false, if_false]
      exact this

theorem first_with_alias_of_match (name : String) (ts : List (lglTemplate R))
    (h : ∃ t1 ∈ ts, ∃ alias_name ∈ t1.aliases, g_strcasecmp alias_name name = 0) :
    ∃ t, first_with_alias name ts = some t := by
  obtain ⟨t1, ht1, a, ha, hcmp⟩ := h
  cases hfind : first_with_alias name ts with
  | some t => exact ⟨t, rfl⟩
  | none =>
    exfalso
    unfold first_with_alias at hfind
    rw [List.find?_eq_none] at hfind
    apply hfind t1 ht1
    rw [List.any_eq_true]
    exact ⟨a, ha, by simp [hcmp]⟩

/-- The first template with a matching alias is a registered template, it has a
matching alias, and no template registered before it has one. -/
theorem first_with_alias_spec (name : String) (ts : List (lglTemplate R)) (t : lglTemplate R)
    (h : first_with_alias name ts = some t) :
    (∃ alias_name ∈ t.aliases, g_strcasecmp alias_name name = 0) ∧
    ∃ before after, ts = before ++ t :: after ∧
      ∀ t1 ∈ before, ∀ alias_name ∈ t1.aliases, g_strcasecmp alias_name name ≠ 0 := by
  unfold first_with_alias at h
  rw [List.find?_eq_some] at h
  obtain ⟨hany, before, after, hts, hbefore⟩ := h
  refine ⟨?_, before, after, hts, ?_⟩
  · rw [List.any_eq_true] at hany
    obtain ⟨a, ha, hcmp⟩ := hany
    exact ⟨a, ha, by simpa using hcmp⟩
  · intro t1 ht1 a ha hcmp
    have hfalse := hbefore t1 ht1
    have htrue : t1.aliases.any (fun alias_name => g_strcasecmp alias_name name == 0) = true := by
      rw [List.any_eq_true]
      exact ⟨a, ha, by simp [hcmp]⟩
    rw [htrue] at hfalse
    cases hfalse

theorem g_strcasecmp_codes_antisymm (s1 s2 : List Nat) :
    g_strcasecmp_codes s1 s2 = - g_strcasecmp_codes s2 s1 := by
  induction s1 generalizing s2 with
  | nil => cases s2 <;> simp [g_strcasecmp_codes]
  | cons c1 s1 ih =>
    cases s2 with
    | nil => simp [g_strcasecmp_codes]
    | cons c2 s2 =>
      by_cases hc : ascii_lower c1 = ascii_lower c2
      · simp [g_strcasecmp_codes, hc, ih s2]
      · have hc2 : ¬ ascii_lower c2 = ascii_lower c1 := fun h => hc h.symm
        simp [g_strcasecmp_codes, hc, hc2]

/-- Equality ignoring case, as `g_strcasecmp` decides it, does not depend on the order
of the two arguments. -/
theorem g_strcasecmp_eq_zero_comm (s1 s2 : String) :
    g_strcasecmp s1 s2 = 0 ↔ g_strcasecmp s2 s1 = 0 := by
  unfold g_strcasecmp
  rw [g_strcasecmp_codes_antisymm]
  exact neg_eq_zero

theorem g_strcasecmp_codes_refl (l : List Nat) : g_strcasecmp_codes l l = 0 := by
  induction l with
  | nil => rfl
  | cons c l ih => simp [g_strcasecmp_codes, ih]

theorem g_strcasecmp_refl (a : String) : g_strcasecmp a a = 0 :=
  g_strcasecmp_codes_refl _

theorem c_string_codes_ne_zero (a : String) : ∀ c ∈ c_string_codes a, c ≠ 0 := by
  intro c hc
  have h := List.mem_takeWhile_imp hc
  simpa using h

theorem g_strcasecmp_codes_trans (a b c : List Nat)
    (ha : ∀ x ∈ a, x ≠ 0) (hb : ∀ x ∈ b, x ≠ 0)
    (hab : g_strcasecmp_codes a b ≤ 0) (hbc : g_strcasecmp_codes b c ≤ 0) :
    g_strcasecmp_codes a c ≤ 0 := by
  induction a generalizing b c with
  | nil =>
    cases c with
    | nil => simp [g_strcasecmp_codes]
    | cons z c => simp [g_strcasecmp_codes]
  | cons x a ih =>
    have hx : x ≠ 0 := ha x (List.mem_cons_self _ _)
    cases b with
    | nil =>
      simp only [g_strcasecmp_codes] at hab
      omega
    | cons y b =>
      have hy : y ≠ 0 := hb y (List.mem_cons_self _ _)
      cases c with
      | nil =>
        simp only [g_strcasecmp_codes] at hbc
        omega
      | cons z c =>
        simp only [g_strcasecmp_codes] at hab hbc ⊢
        by_cases hxy : ascii_lower x = ascii_lower y
        · by_cases hyz : ascii_lower y = ascii_lower z
          · have hxz : ascii_lower x = ascii_lower z := hxy.trans hyz
            simp only [hxy, hyz, hxz, ne_eq, not_true_eq_false, if_false] at hab hbc ⊢
            exact ih b c (fun x hx => ha x (List.mem_cons_of_mem _ hx))
              (fun x hx => hb x (List.mem_cons_of_mem _ hx)) hab hbc
          · have hxz : ¬ ascii_lower x = ascii_lower z := fun h => hyz (hxy.symm.trans h)
            simp only [hyz, hxz, ne_eq, not_false_eq_true, if_true] at hbc ⊢
            omega
        · simp only [hxy, ne_eq, not_false_eq_true, if_true] at hab
          by_cases hyz : ascii_lower y = ascii_lower z
          · have hxz : ¬ ascii_lower x = ascii_lower z := fun h => hxy (h.trans hyz.symm)
            simp only [hxz, ne_eq, not_false_eq_true, if_true]
            omega
          · simp only [hyz, ne_eq, not_false_eq_true, if_true] at hbc
            have hxz : ¬ ascii_lower x = ascii_lower z := by omega
            simp only [hxz, ne_eq, not_false_eq_true, if_true]
            omega

theorem g_strcasecmp_trans (a b c : String) (hab : g_strcasecmp a b ≤ 0)
    (hbc : g_strcasecmp b c ≤ 0) : g_strcasecmp a c ≤ 0 :=
  g_strcasecmp_codes_trans _ _ _ (c_string_codes_ne_zero a) (c_string_codes_ne_zero b) hab hbc

theorem g_strcasecmp_total (a b : String) : g_strcasecmp a b ≤ 0 ∨ g_strcasecmp b a ≤ 0 := by
  unfold g_strcasecmp
  rw [g_strcasecmp_codes_antisymm (c_string_codes b)]
  omega

instance g_strcasecmp_le_total : IsTotal String (fun a b => g_strcasecmp a b ≤ 0) :=
  ⟨g_strcasecmp_total⟩

instance g_strcasecmp_le_trans : IsTrans String (fun a b => g_strcasecmp a b ≤ 0) :=
  ⟨g_strcasecmp_trans⟩

theorem g_list_insert_sorted_eq {α : Type} (func : α → α → Int) (list : List α) (data : α) :
    g_list_insert_sorted list data func
      = list.orderedInsert (fun a b => func a b ≤ 0) data := by
  induction list with
  | nil => rfl
  | cons x rest ih =>
    by_cases h : func data x > 0
    · simp [g_list_insert_sorted, List.orderedInsert, h, not_le.mpr h, ih]
    · simp [g_list_insert_sorted, List.orderedInsert, h, not_lt.mp h]

theorem g_list_insert_sorted_perm {α : Type} (func : α → α → Int) (list : List α) (data : α) :
    (g_list_insert_sorted list data func).Perm (list ++ [data]) := by
  rw [g_list_insert_sorted_eq]
  exact (List.perm_orderedInsert _ data list).trans (List.perm_append_singleton data list).symm

theorem g_list_insert_sorted_names_sorted (names : List String) (data : String)
    (h : List.Sorted (fun a b => g_strcasecmp a b ≤ 0) names) :
    List.Sorted (fun a b => g_strcasecmp a b ≤ 0)
      (g_list_insert_sorted names data g_strcasecmp) := by
  rw [g_list_insert_sorted_eq]
  exact h.orderedInsert data names

/-- Inserting a list of strings one by one. -/
theorem foldl_insert_sorted_perm (xs names : List String) :
    (xs.foldl (fun names x => g_list_insert_sorted names x g_strcasecmp) names).Perm
      (names ++ xs) := by
  induction xs generalizing names with
  | nil => simp
  | cons x xs ih =>
    rw [List.foldl_cons]
    refine (ih _).trans ?_
    have h := (g_list_insert_sorted_perm g_strcasecmp names x).append_right xs
    simpa using h

theorem foldl_insert_sorted_sorted (xs names : List String)
    (h : List.Sorted (fun a b => g_strcasecmp a b ≤ 0) names) :
    List.Sorted (fun a b => g_strcasecmp a b ≤ 0)
      (xs.foldl (fun names x => g_list_insert_sorted names x g_strcasecmp) names) := by
  induction xs generalizing names with
  | nil => exact h
  | cons x xs ih =>
    rw [List.foldl_cons]
    exact ih _ (g_list_insert_sorted_names_sorted names x h)

theorem matching_templates_nil (page_size category : Option String) :
    matching_templates ([] : List (Option (lglTemplate R))) page_size category = [] := rfl

theorem matching_templates_none (ts : List (Option (lglTemplate R)))
    (page_size category : Option String) :
    matching_templates (none :: ts) page_size category
      = matching_templates ts page_size category := by
  simp [matching_templates]

theorem matching_templates_some (t : lglTemplate R) (ts : List (Option (lglTemplate R)))
    (page_size category : Option String) :
    matching_templates (some t :: ts) page_size category
      = if lgl_template_does_page_size_match (some t) page_size &&
           lgl_template_does_category_match (some t) category
        then t :: matching_templates ts page_size category
        else matching_templates ts page_size category := by
  simp only [matching_templates, List.filterMap_cons, id_eq, List.filter_cons]

/-- The loop of `lgl_template_get_name_list_unique` inserts the name of each matching
template. -/
theorem name_list_unique_loop (page_size category : Option String)
    (templates : List (Option (lglTemplate R))) (names : List String) :
    (templates.foldl (fun names template =>
      if lgl_template_does_page_size_match template page_size &&
         lgl_template_does_category_match template category then
        match template with
        | some template => g_list_insert_sorted names template.name g_strcasecmp
        | none => names
      else names) names).Perm
      (names ++ (matching_templates templates page_size category).map (fun t => t.name)) ∧
    (List.Sorted (fun a b => g_strcasecmp a b ≤ 0) names →
      List.Sorted (fun a b => g_strcasecmp a b ≤ 0)
        (templates.foldl (fun names template =>
          if lgl_template_does_page_size_match template page_size &&
             lgl_template_does_category_match template category then
            match template with
            | some template => g_list_insert_sorted names template.name g_strcasecmp
            | none => names
          else names) names)) := by
  induction templates generalizing names with
  | nil => simp [matching_templates_nil]
  | cons x ts ih =>
    rw [List.foldl_cons]
    cases x with
    | none =>
      rw [matching_templates_none]
      simp only [lgl_template_does_page_size_match, Bool.false_and, Bool.false_eq_true, if_false]
      exact ih names
    | some t =>
      rw [matching_templates_some]
      by_cases hm : (lgl_template_does_page_size_match (some t) page_size &&
          lgl_template_does_category_match (some t) category) = true
      · simp only [hm, if_true]
        refine ⟨((ih _).1).trans ?_, fun hs =>
          (ih _).2 (g_list_insert_sorted_names_sorted names t.name hs)⟩
        have h := (g_list_insert_sorted_perm g_strcasecmp names t.name).append_right
          ((matching_templates ts page_size category).map (fun t => t.name))
        simpa using h
      · simp only [hm, if_false, Bool.false_eq_true]
        exact ih names

/-- The loops of `lgl_template_get_name_list_all` insert every alias of each matching
template. -/
theorem name_list_all_loop (page_size category : Option String)
    (templates : List (Option (lglTemplate R))) (names : List String) :
    (templates.foldl (fun names template =>
      if lgl_template_does_page_size_match template page_size &&
         lgl_template_does_category_match template category then
        match template with
        | some template =>
          template.aliases.foldl
            (fun names p_alias => g_list_insert_sorted names p_alias g_strcasecmp) names
        | none => names
      else names) names).Perm
      (names ++ (matching_templates templates page_size category).flatMap (fun t => t.aliases)) ∧
    (List.Sorted (fun a b => g_strcasecmp a b ≤ 0) names →
      List.Sorted (fun a b => g_strcasecmp a b ≤ 0)
        (templates.foldl (fun names template =>
          if lgl_template_does_page_size_match template page_size &&
             lgl_template_does_category_match template category then
            match template with
            | some template =>
              template.aliases.foldl
                (fun names p_alias => g_list_insert_sorted names p_alias g_strcasecmp) names
            | none => names
          else names) names)) := by
  induction templates generalizing names with
  | nil => simp [matching_templates_nil]
  | cons x ts ih =>
    rw [List.foldl_cons]
    cases x with
    | none =>
      rw [matching_templates_none]
      simp only [lgl_template_does_page_size_match, Bool.false_and, Bool.false_eq_true, if_false]
      exact ih names
    | some t =>
      rw [matching_templates_some]
      by_cases hm : (lgl_template_does_page_size_match (some t) page_size &&
          lgl_template_does_category_match (some t) category) = true
      · simp only [hm, if_true]
        refine ⟨((ih _).1).trans ?_, fun hs =>
          (ih _).2 (foldl_insert_sorted_sorted t.aliases names hs)⟩
        have h := (foldl_insert_sorted_perm t.aliases names).append_right
          ((matching_templates ts page_size category).flatMap (fun t => t.aliases))
        simpa using h
      · simp only [hm, if_false, Bool.false_eq_true]
        exact ih names

/-- The lookup of a name that some alias equals returns the copy of the first such
template. -/
theorem from_name_of_match (env : Env R) (ts : List (lglTemplate R))
    (written : List (lglTemplate R × String)) (dirs messages : List String)
    (name : String) (t : lglTemplate R) (h : first_with_alias name ts = some t) :
    lgl_template_from_name env
        { templates := ts.map some, written := written, dirs := dirs, messages := messages }
        (some name)
      = some (lgl_template_dup (some t),
          { templates := ts.map some, written := written, dirs := dirs, messages := messages }) := by
  have hne : ts.map some ≠ [] := by
    cases ts with
    | nil => simp [first_with_alias] at h
    | cons a l => simp
  unfold lgl_template_from_name
  simp only [hne, if_false, from_name_scan_map_some, h]

end Registry

/-! ## The claims on the registry -/

/-- C7: on every registry and for every name that is not `NULL` and that equals,
ignoring case, some alias of some registered template (which makes the registry
non-empty), `lgl_template_from_name` returns `lgl_template_dup t`, where `t` is the
first template in registration order whose alias list has a string equal to the name
ignoring case; the registry stays as it is. -/
theorem from_name_first_match (env : Env R) (ts : List (lglTemplate R))
    (written : List (lglTemplate R × String)) (dirs messages : List String)
    (name : String)
    (h : ∃ t1 ∈ ts, ∃ alias_name ∈ t1.aliases, g_strcasecmp alias_name name = 0) :
    ∃ t, first_with_alias name ts = some t ∧
      lgl_template_from_name env
        { templates := ts.map some, written := written, dirs := dirs, messages := messages }
        (some name)
      = some (lgl_template_dup (some t),
          { templates := ts.map some, written := written, dirs := dirs, messages := messages }) := by
  obtain ⟨t, ht⟩ := first_with_alias_of_match name ts h
  exact ⟨t, ht, from_name_of_match env ts written dirs messages name t ht⟩

/-- Witness of C7: `avery 5260` is an alias of both example templates; the lookup
returns the copy of the first one. -/
theorem from_name_first_match_witness :
    first_with_alias "avery 5260" [exTemplateA, exTemplateB] = some exTemplateA ∧
    lgl_template_from_name exEnv exState (some "avery 5260")
      = some (lgl_template_dup (some exTemplateA), exState) :=
  ⟨by decide, by
    obtain ⟨t, ht, hres⟩ := from_name_first_match exEnv [exTemplateA, exTemplateB] [] [] []
      "avery 5260" ⟨exTemplateB, by decide, "Avery 5260", by decide, by decide⟩
    have hfirst : first_with_alias "avery 5260" [exTemplateA, exTemplateB] = some exTemplateA := by
      decide
    rw [hfirst] at ht
    injection ht with ht
    rw [ht]
    exact hres⟩

/-- C8: on a registry that is not empty `lgl_template_from_name` never fails: it
always returns a template; for the name `NULL`, and for a name that no alias of any
registered template equals ignoring case, it returns the copy of the first template
in registration order, so the lookup of such a name (as `nonexistent`) and the lookup
of `NULL` agree. -/
theorem from_name_fallback (env : Env R) (first : lglTemplate R) (rest : List (lglTemplate R))
    (written : List (lglTemplate R × String)) (dirs messages : List String) :
    (∀ name : Option String, ∃ r,
      lgl_template_from_name env
          { templates := (first :: rest).map some, written := written, dirs := dirs,
            messages := messages } name
        = some (some r,
            { templates := (first :: rest).map some, written := written, dirs := dirs,
              messages := messages })) ∧
    lgl_template_from_name env
        { templates := (first :: rest).map some, written := written, dirs := dirs,
          messages := messages } none
      = some (lgl_template_dup (some first),
          { templates := (first :: rest).map some, written := written, dirs := dirs,
            messages := messages }) ∧
    (∀ name : String, first_with_alias name (first :: rest) = none →
      lgl_template_from_name env
          { templates := (first :: rest).map some, written := written, dirs := dirs,
            messages := messages } (some name)
        = some (lgl_template_dup (some first),
            { templates := (first :: rest).map some, written := written, dirs := dirs,
              messages := messages }) ∧
      lgl_template_from_name env
          { templates := (first :: rest).map some, written := written, dirs := dirs,
            messages := messages } (some name)
        = lgl_template_from_name env
          { templates := (first :: rest).map some, written := written, dirs := dirs,
            messages := messages } none) ∧
    (first_with_alias "nonexistent" (first :: rest) = none →
      lgl_template_from_name env
          { templates := (first :: rest).map some, written := written, dirs := dirs,
            messages := messages } (some "nonexistent")
        = lgl_template_from_name env
          { templates := (first :: rest).map some, written := written, dirs := dirs,
            messages := messages } none) := by
  have hne : (first :: rest).map some ≠ [] := by simp
  have hnull : lgl_template_from_name env
        { templates := (first :: rest).map some, written := written, dirs := dirs,
          messages := messages } none
      = some (lgl_template_dup (some first),
          { templates := (first :: rest).map some, written := written, dirs := dirs,
            messages := messages }) := by
    unfold lgl_template_from_name
    simp only [hne, if_false]
    rfl
  have hmiss : ∀ name : String, first_with_alias name (first :: rest) = none →
      lgl_template_from_name env
          { templates := (first :: rest).map some, written := written, dirs := dirs,
            messages := messages } (some name)
        = some (lgl_template_dup (some first),
            { templates := (first :: rest).map some, written := written, dirs := dirs,
              messages := messages }) := by
    intro name h
    unfold lgl_template_from_name
    simp only [hne, if_false, from_name_scan_map_some, h]
    rfl
  refine ⟨?_, hnull, fun name h => ⟨hmiss name h, by rw [hmiss name h, hnull]⟩,
    fun h => by rw [hmiss _ h, hnull]⟩
  intro name
  cases name with
  | none => exact ⟨_, hnull⟩
  | some name =>
    cases hfind : first_with_alias name (first :: rest) with
    | none => exact ⟨_, hmiss name hfind⟩
    | some t =>
      exact ⟨_, from_name_of_match env (first :: rest) written dirs messages name t hfind⟩

/-- Witness of C8: no alias of the example registry equals `nonexistent`; its lookup and
the lookup of `NULL` both return the copy of `exTemplateA`. -/
theorem from_name_fallback_witness :
    lgl_template_from_name exEnv exState (some "nonexistent")
      = some (lgl_template_dup (some exTemplateA), exState) ∧
    lgl_template_from_name exEnv exState (some "nonexistent")
      = lgl_template_from_name exEnv exState none :=
  ⟨((from_name_fallback exEnv exTemplateA [exTemplateB] [] [] []).2.2.1
      "nonexistent" (by decide)).1,
   (from_name_fallback exEnv exTemplateA [exTemplateB] [] [] []).2.2.2 (by decide)⟩

/-- C9: when the name of the template equals, ignoring case, an alias of a template
that is already registered, `lgl_template_register` leaves the registry as it is (same
templates, same count) and does not call the file writer, whatever the page size and
the content of the template. -/
theorem register_known_name_noop (env : Env R) (ts : List (lglTemplate R))
    (written : List (lglTemplate R × String)) (dirs messages : List String)
    (template : lglTemplate R)
    (h : ∃ t1 ∈ ts, ∃ alias_name ∈ t1.aliases, g_strcasecmp template.name alias_name = 0) :
    lgl_template_register env
        { templates := ts.map some, written := written, dirs := dirs, messages := messages }
        template
      = some { templates := ts.map some, written := written, dirs := dirs,
               messages := messages } := by
  obtain ⟨t1, ht1, a, ha, hcmp⟩ := h
  have hne : ts.map some ≠ [] := by
    cases ts with
    | nil => cases ht1
    | cons a l => simp
  have hany : ts.any (fun t => t.aliases.any
      (fun alias_name => g_strcasecmp template.name alias_name == 0)) = true := by
    rw [List.any_eq_true]
    refine ⟨t1, ht1, ?_⟩
    rw [List.any_eq_true]
    exact ⟨a, ha, by simp [hcmp]⟩
  unfold lgl_template_register
  simp only [hne, if_false, register_scan_map_some, hany]

/-- Witness of C9: registering `exTemplateKnownName`, whose name is the alias
`Avery 5260` in capitals, changes nothing. -/
theorem register_known_name_noop_witness :
    lgl_template_register exEnv exState exTemplateKnownName = some exState :=
  register_known_name_noop exEnv [exTemplateA, exTemplateB] [] [] [] exTemplateKnownName
    ⟨exTemplateA, by decide, "Avery 5260", by decide, by decide⟩

/-- C10: on an initialised registry, for a template whose page size the paper module
does not know, `lgl_template_register` returns with the template list unchanged and
without a call of the file writer (and without a call of `mkdir`). -/
theorem register_unknown_page_size (env : Env R) (ts : List (lglTemplate R))
    (written : List (lglTemplate R × String)) (dirs messages : List String)
    (template : lglTemplate R)
    (hinit : initialized env
      { templates := ts.map some, written := written, dirs := dirs, messages := messages })
    (hpage : env.lgl_paper_is_id_known template.page_size = false) :
    ∃ s, lgl_template_register env
          { templates := ts.map some, written := written, dirs := dirs, messages := messages }
          template = some s ∧
      s.templates = ts.map some ∧ s.written = written ∧ s.dirs = dirs := by
  cases ts with
  | nil =>
    unfold initialized at hinit
    have hw := init_written env
      { templates := [], written := written, dirs := dirs, messages := messages }
    simp only [List.map_nil] at hinit hw ⊢
    unfold lgl_template_register
    simp only [if_true, hinit, register_scan, hpage, Bool.false_eq_true, if_false]
    refine ⟨_, rfl, ?_, ?_, ?_⟩
    · rfl
    · exact hw.1
    · exact hw.2
  | cons t ts =>
    have hne : (t :: ts).map some ≠ [] := by simp
    unfold lgl_template_register
    simp only [hne, if_false, register_scan_map_some, hpage, Bool.false_eq_true]
    cases (t :: ts).any (fun t => t.aliases.any
        (fun alias_name => g_strcasecmp template.name alias_name == 0)) with
    | true => exact ⟨_, rfl, rfl, rfl, rfl⟩
    | false => exact ⟨_, rfl, rfl, rfl, rfl⟩

/-- Witness of C10: registering `exTemplateUnknownPage` (page size `Foolscap`) on the
example registry only adds a message. -/
theorem register_unknown_page_size_witness :
    ∃ s, lgl_template_register exEnv exState exTemplateUnknownPage = some s ∧
      s.templates = [exTemplateA, exTemplateB].map some ∧ s.written = [] ∧ s.dirs = [] :=
  register_unknown_page_size exEnv [exTemplateA, exTemplateB] [] [] [] exTemplateUnknownPage
    (by unfold initialized; decide) (by decide)

/-! ## Properties of the entity model -/

section Entity

theorem foldl_add_layout (ls : List (lglTemplateLayout R)) (frame : lglTemplateFrame R) :
    ls.foldl (fun frame layout =>
        lgl_template_frame_add_layout frame (lgl_template_layout_dup layout)) frame
      = match frame with
        | .rect all w h r xw yw => .rect { all with layouts := all.layouts ++ ls } w h r xw yw
        | .round all r waste => .round { all with layouts := all.layouts ++ ls } r waste
        | .cd all r1 r2 w h waste =>
            .cd { all with layouts := all.layouts ++ ls } r1 r2 w h waste
        | .unknown all => .unknown { all with layouts := all.layouts ++ ls } := by
  induction ls generalizing frame with
  | nil => cases frame <;> simp
  | cons l ls ih =>
    rw [List.foldl_cons, ih]
    cases frame <;>
      simp [lgl_template_frame_add_layout, lgl_template_layout_dup]

theorem foldl_add_markup (ms : List (lglTemplateMarkup R)) (frame : lglTemplateFrame R) :
    ms.foldl (fun frame markup =>
        lgl_template_frame_add_markup frame (lgl_template_markup_dup markup)) frame
      = match frame with
        | .rect all w h r xw yw => .rect { all with markups := all.markups ++ ms } w h r xw yw
        | .round all r waste => .round { all with markups := all.markups ++ ms } r waste
        | .cd all r1 r2 w h waste =>
            .cd { all with markups := all.markups ++ ms } r1 r2 w h waste
        | .unknown all => .unknown { all with markups := all.markups ++ ms } := by
  induction ms generalizing frame with
  | nil => cases frame <;> simp
  | cons m ms ih =>
    rw [List.foldl_cons, ih]
    cases frame <;>
      simp [lgl_template_frame_add_markup, lgl_template_markup_dup]

/-- The copy of a frame of one of the three shapes is the frame itself; a frame of
another shape has no copy. -/
theorem frame_dup_eq (frame : lglTemplateFrame R) :
    lgl_template_frame_dup frame
      = match frame with
        | .unknown _ => none
        | frame => some frame := by
  cases frame with
  | rect all w h r xw yw =>
    simp [lgl_template_frame_dup, lgl_template_frame_rect_new, foldl_add_layout,
      foldl_add_markup, lglTemplateFrame.all]
  | round all r waste =>
    simp [lgl_template_frame_dup, lgl_template_frame_round_new, foldl_add_layout,
      foldl_add_markup, lglTemplateFrame.all]
  | cd all r1 r2 w h waste =>
    simp [lgl_template_frame_dup, lgl_template_frame_cd_new, foldl_add_layout,
      foldl_add_markup, lglTemplateFrame.all]
  | unknown all => simp [lgl_template_frame_dup]

theorem foldl_add_category (cs : List String) (template : lglTemplate R) :
    cs.foldl (fun template category => lgl_template_add_category template (some category))
        template
      = { template with categories := template.categories ++ cs } := by
  induction cs generalizing template with
  | nil => simp
  | cons c cs ih =>
    rw [List.foldl_cons, ih]
    simp [lgl_template_add_category]

theorem foldl_add_frame (fs : List (lglTemplateFrame R)) (template : lglTemplate R) :
    fs.foldl (fun template frame =>
        lgl_template_add_frame template (lgl_template_frame_dup frame)) template
      = { template with
          frames := template.frames ++ fs.filterMap lgl_template_frame_dup } := by
  induction fs generalizing template with
  | nil => simp
  | cons f fs ih =>
    rw [List.foldl_cons, ih]
    cases hf : lgl_template_frame_dup f with
    | none => simp [lgl_template_add_frame, List.filterMap_cons, hf]
    | some d => simp [lgl_template_add_frame, List.filterMap_cons, hf]

theorem foldl_add_alias (names : List String) (template : lglTemplate R) :
    names.foldl (fun template alias_name =>
        if g_strcasecmp template.name alias_name ≠ 0 then
          lgl_template_add_alias template (some alias_name)
        else template) template
      = { template with
          aliases := template.aliases ++
            names.filter (fun alias_name => g_strcasecmp template.name alias_name ≠ 0) } := by
  induction names generalizing template with
  | nil => simp
  | cons a names ih =>
    rw [List.foldl_cons, ih]
    by_cases h : g_strcasecmp template.name a = 0
    · simp [h]
    · simp [h, lgl_template_add_alias]

/-- The copy of a template in closed form. -/
theorem template_dup_eq (t : lglTemplate R) :
    lgl_template_dup (some t)
      = some { name := t.name, description := t.description, page_size := t.page_size,
               page_width := t.page_width, page_height := t.page_height,
               aliases := t.name ::
                 t.aliases.filter (fun alias_name => g_strcasecmp t.name alias_name ≠ 0),
               categories := t.categories,
               frames := t.frames.filterMap lgl_template_frame_dup } := by
  unfold lgl_template_dup
  simp only
  rw [foldl_add_category, foldl_add_frame, foldl_add_alias]
  simp [lgl_template_new]

end Entity

/-! ## The claims on registration and on the name lists -/

/-- C11: on an initialised registry, for a template whose name equals no alias of a
registered template ignoring case and whose page size the paper module knows,
`lgl_template_register` makes the registry the old list with `lgl_template_dup` of the
template added at the end (one entry more, the old entries unchanged) and calls the
file writer exactly once, with the template and the path built from the user data
directory and `<name>.template`. -/
theorem register_appends_and_writes (env : Env R) (ts : List (lglTemplate R))
    (written : List (lglTemplate R × String)) (dirs messages : List String)
    (template : lglTemplate R)
    (hinit : initialized env
      { templates := ts.map some, written := written, dirs := dirs, messages := messages })
    (hnew : ∀ t1 ∈ ts, ∀ alias_name ∈ t1.aliases, g_strcasecmp template.name alias_name ≠ 0)
    (hpage : env.lgl_paper_is_id_known template.page_size = true) :
    ∃ d s, lgl_template_dup (some template) = some d ∧
      lgl_template_register env
          { templates := ts.map some, written := written, dirs := dirs, messages := messages }
          template = some s ∧
      s.templates = (ts ++ [d]).map some ∧
      s.templates.length = ts.length + 1 ∧
      s.written = written ++
        [(template, env.g_build_filename env.LGL_USER_DATA_DIR (template.name ++ ".template"))] := by
  obtain ⟨d, hd⟩ : ∃ d, lgl_template_dup (some template) = some d := ⟨_, template_dup_eq template⟩
  refine ⟨d, ?_⟩
  cases ts with
  | nil =>
    unfold initialized at hinit
    have hw := init_written env
      { templates := [], written := written, dirs := dirs, messages := messages }
    simp only [List.map_nil] at hinit hw ⊢
    unfold lgl_template_register
    simp only [if_true, hinit, register_scan, hpage]
    refine ⟨_, hd, rfl, ?_, ?_, ?_⟩
    · simp [hd]
    · simp
    · simp [hw.1]
  | cons t ts =>
    have hne : (t :: ts).map some ≠ [] := by simp
    have hany : (t :: ts).any (fun t => t.aliases.any
        (fun alias_name => g_strcasecmp template.name alias_name == 0)) = false := by
      rw [Bool.eq_false_iff]
      intro h
      rw [List.any_eq_true] at h
      obtain ⟨t1, ht1, h1⟩ := h
      rw [List.any_eq_true] at h1
      obtain ⟨a, ha, hcmp⟩ := h1
      exact hnew t1 ht1 a ha (by simpa using hcmp)
    unfold lgl_template_register
    simp only [hne, if_false, register_scan_map_some, hany, hpage, if_true]
    refine ⟨_, hd, rfl, ?_, ?_, ?_⟩
    · simp [hd]
    · simp
    · simp

/-- Witness of C11: registering `exTemplateNew` on the example registry adds its copy
at the end and writes `/home/user/.glabels/Home made.template`. -/
theorem register_appends_and_writes_witness :
    ∃ d s, lgl_template_dup (some exTemplateNew) = some d ∧
      lgl_template_register exEnv exState exTemplateNew = some s ∧
      s.templates = ([exTemplateA, exTemplateB] ++ [d]).map some ∧
      s.templates.length = 2 + 1 ∧
      s.written = [] ++ [(exTemplateNew, "/home/user/.glabels/Home made.template")] :=
  register_appends_and_writes exEnv [exTemplateA, exTemplateB] [] [] [] exTemplateNew
    (by unfold initialized; decide) (by decide) (by decide)

/-- C12: for every registry and every pair of filters,
`lgl_template_get_name_list_unique` returns one entry per template that matches both
filters, the name of that template: the list is a permutation of the names of the
matching templates and has as many entries as there are matching templates.  (The
registry that is listed is the one after `lgl_template_init`, which the call leaves
behind.) -/
theorem name_list_unique_one_per_template (env : Env R) (s : State R)
    (page_size category : Option String) :
    (lgl_template_get_name_list_unique env s page_size category).2 = ensure_init env s ∧
    (lgl_template_get_name_list_unique env s page_size category).1.Perm
      ((matching_templates (ensure_init env s).templates page_size category).map
        (fun t => t.name)) ∧
    (lgl_template_get_name_list_unique env s page_size category).1.length
      = (matching_templates (ensure_init env s).templates page_size category).length := by
  have hp := (name_list_unique_loop page_size category (ensure_init env s).templates []).1
  rw [List.nil_append] at hp
  refine ⟨rfl, hp, ?_⟩
  have hl := hp.length_eq
  rw [List.length_map] at hl
  exact hl

/-- C13, as stated, fails: when the system directory and the user directory both hold
a template named `Avery 5160` (the environment `dupEnv`), the list of
`lgl_template_get_name_list_unique` has that name twice. -/
theorem name_list_unique_has_duplicates :
    (lgl_template_get_name_list_unique dupEnv emptyState none none).1
      = ["Avery 5160", "Avery 5160", "Generic A4 full page"] ∧
    ¬ List.Pairwise (fun a b => g_strcasecmp a b ≠ 0)
      (lgl_template_get_name_list_unique dupEnv emptyState none none).1 := by
  decide

/-- C13, amended: the list of `lgl_template_get_name_list_unique` has two entries that
are equal ignoring case exactly when two of the matching templates have names that
are equal ignoring case; so it has no such pair whenever the names of the matching
templates differ pairwise. -/
theorem name_list_unique_distinct_iff (env : Env R) (s : State R)
    (page_size category : Option String) :
    List.Pairwise (fun a b => g_strcasecmp a b ≠ 0)
        (lgl_template_get_name_list_unique env s page_size category).1 ↔
      List.Pairwise (fun a b => g_strcasecmp a b ≠ 0)
        ((matching_templates (ensure_init env s).templates page_size category).map
          (fun t => t.name)) := by
  have hp := (name_list_unique_loop page_size category (ensure_init env s).templates []).1
  rw [List.nil_append] at hp
  exact hp.pairwise_iff (fun {a b} h hba => h ((g_strcasecmp_eq_zero_comm a b).mpr hba))

/-- Witness of C13 (amended): the two templates of the example registry have different
names, and the list of their names has no two entries equal ignoring case. -/
theorem name_list_unique_distinct_iff_witness :
    List.Pairwise (fun a b => g_strcasecmp a b ≠ 0)
      (lgl_template_get_name_list_unique exEnv exState none none).1 :=
  (name_list_unique_distinct_iff exEnv exState none none).mpr (by decide)

/-- C14: for every registry and every pair of filters, `lgl_template_get_name_list_all`
returns one entry per alias of every matching template: the list is a permutation of
the concatenated alias lists of the matching templates, and its length is the sum of
the lengths of their alias lists. -/
theorem name_list_all_one_per_alias (env : Env R) (s : State R)
    (page_size category : Option String) :
    (lgl_template_get_name_list_all env s page_size category).2 = ensure_init env s ∧
    (lgl_template_get_name_list_all env s page_size category).1.Perm
      ((matching_templates (ensure_init env s).templates page_size category).flatMap
        (fun t => t.aliases)) ∧
    (lgl_template_get_name_list_all env s page_size category).1.length
      = ((matching_templates (ensure_init env s).templates page_size category).map
          (fun t => t.aliases.length)).sum := by
  have hp := (name_list_all_loop page_size category (ensure_init env s).templates []).1
  rw [List.nil_append] at hp
  refine ⟨rfl, hp, ?_⟩
  have hl := hp.length_eq
  rw [List.length_flatMap] at hl
  exact hl

/-- C15: for every registry and every pair of filters, the lists of
`lgl_template_get_name_list_unique` and of `lgl_template_get_name_list_all` are sorted
ascending under `g_strcasecmp`: every adjacent pair `(a, b)` has
`g_strcasecmp a b ≤ 0`. -/
theorem name_lists_sorted (env : Env R) (s : State R) (page_size category : Option String) :
    List.Chain' (fun a b => g_strcasecmp a b ≤ 0)
      (lgl_template_get_name_list_unique env s page_size category).1 ∧
    List.Chain' (fun a b => g_strcasecmp a b ≤ 0)
      (lgl_template_get_name_list_all env s page_size category).1 :=
  ⟨((name_list_unique_loop page_size category (ensure_init env s).templates []).2
      List.sorted_nil).chain',
   ((name_list_all_loop page_size category (ensure_init env s).templates []).2
      List.sorted_nil).chain'⟩

/-! ## The claims on the entity model -/

/-- C16, as stated, fails: the template `exTemplateOddFrame` has three frames, the
second of a shape that is none of the three; its copy has only the copies of the
first and of the third frame. -/
theorem template_dup_drops_frame_of_unknown_shape :
    (lgl_template_dup (some exTemplateOddFrame)).map (fun d => d.frames)
      = some [exFrame, emptyFrame] ∧
    ¬ ∃ d, lgl_template_dup (some exTemplateOddFrame) = some d ∧
        d.frames.map some = exTemplateOddFrame.frames.map lgl_template_frame_dup := by
  refine ⟨by decide, ?_⟩
  rintro ⟨d, hd, hframes⟩
  have hlen := congrArg List.length hframes
  have hd2 : (lgl_template_dup (some exTemplateOddFrame)).map (fun d => d.frames)
      = some [exFrame, emptyFrame] := by decide
  rw [hd] at hd2
  simp only [Option.map_some', Option.some.injEq] at hd2
  rw [List.length_map, List.length_map, hd2] at hlen
  revert hlen
  decide

/-- C16, amended: for every template `t`, `lgl_template_dup t` has the name, the
description, the page size, the page width and the page height of `t`, the categories
of `t` in the same order, the copies of the frames of `t` of shape Rect, Round or CD
in the same order (a frame of another shape is left out), and the alias list `t.name`
followed by, in order, every alias of `t` that is not equal to `t.name` ignoring case;
when every frame of `t` has one of the three shapes, all frames of `t` are copied. -/
theorem template_dup_fields (t : lglTemplate R) :
    ∃ d, lgl_template_dup (some t) = some d ∧
      d.name = t.name ∧ d.description = t.description ∧ d.page_size = t.page_size ∧
      d.page_width = t.page_width ∧ d.page_height = t.page_height ∧
      d.categories = t.categories ∧
      d.frames = (t.frames.filter shape_known).filterMap lgl_template_frame_dup ∧
      d.frames.map some = (t.frames.filter shape_known).map lgl_template_frame_dup ∧
      d.aliases = t.name ::
        t.aliases.filter (fun alias_name => g_strcasecmp t.name alias_name ≠ 0) ∧
      ((∀ frame ∈ t.frames, shape_known frame = true) →
        d.frames.map some = t.frames.map lgl_template_frame_dup) := by
  have hkey1 : ∀ fs : List (lglTemplateFrame R),
      fs.filterMap lgl_template_frame_dup
        = (fs.filter shape_known).filterMap lgl_template_frame_dup := by
    intro fs
    induction fs with
    | nil => simp
    | cons f fs ih =>
      cases f <;>
        simp [List.filterMap_cons, List.filter_cons, shape_known, frame_dup_eq, ih]
  have hkey2 : ∀ fs : List (lglTemplateFrame R),
      (fs.filterMap lgl_template_frame_dup).map some
        = (fs.filter shape_known).map lgl_template_frame_dup := by
    intro fs
    induction fs with
    | nil => simp
    | cons f fs ih =>
      cases f <;>
        simp [List.filterMap_cons, List.filter_cons, shape_known, frame_dup_eq, ih]
  refine ⟨_, template_dup_eq t, rfl, rfl, rfl, rfl, rfl, rfl, hkey1 t.frames,
    hkey2 t.frames, rfl, fun hall => ?_⟩
  rw [hkey2 t.frames, List.filter_eq_self.mpr hall]

/-- Witness of C16 (amended): the copy of `exTemplateNameTwice`. -/
theorem template_dup_fields_witness :
    lgl_template_dup (some exTemplateNameTwice)
      = some { name := "Avery 5160", description := "Address labels",
               page_size := "US-Letter", page_width := 0, page_height := 0,
               aliases := ["Avery 5160", "Avery 5260"],
               categories := ["label", "mail"], frames := [twoLayoutFrame] } := by
  obtain ⟨d, hd, h1, h2, h3, h4, h5, h6, _, _, h9, hall⟩ := template_dup_fields exTemplateNameTwice
  have hf := hall (by decide)
  rw [hd]
  cases d with
  | mk name description page_size page_width page_height aliases categories frames =>
    simp only at h1 h2 h3 h4 h5 h6 h9 hf
    subst h1 h2 h3 h4 h5 h6 h9
    have hframes : frames = [twoLayoutFrame] := by
      have : List.map some frames = List.map some [twoLayoutFrame] := by
        rw [hf]; decide
      exact List.map_injective_iff.mpr (Option.some_injective _) this
    subst hframes
    decide

/-- C17: for every template `t`, also one whose alias list has its name several times
or not in first position, the alias list of `lgl_template_dup t` starts with the name
of `t` and contains it exactly once, and it contains exactly one string equal to the
name ignoring case. -/
theorem template_dup_name_once (t : lglTemplate R) :
    ∃ d, lgl_template_dup (some t) = some d ∧
      d.aliases.head? = some t.name ∧
      d.aliases.count t.name = 1 ∧
      (d.aliases.filter (fun alias_name => g_strcasecmp t.name alias_name = 0)).length = 1 := by
  refine ⟨_, template_dup_eq t, rfl, ?_, ?_⟩
  · simp only [List.count_cons_self, Nat.add_left_eq_self]
    rw [List.count_eq_zero]
    intro hmem
    rw [List.mem_filter] at hmem
    have := hmem.2
    simp [g_strcasecmp_refl] at this
  · have hnil : (t.aliases.filter (fun alias_name => g_strcasecmp t.name alias_name ≠ 0)).filter
        (fun alias_name => g_strcasecmp t.name alias_name = 0) = [] := by
      rw [List.filter_filter, List.filter_eq_nil_iff]
      intro a _
      simp
    rw [List.filter_cons_of_pos (by simp [g_strcasecmp_refl]), hnil]
    rfl

/-- C18: for every frame of shape Rect, Round or CD, `lgl_template_frame_dup` returns a
frame equal to it field for field (same shape, same id, same fields of the shape, the
layouts and the markups in the same order), hence with the same size, the same label
count and the same origins. -/
theorem frame_dup_known_shape (frame : lglTemplateFrame R) (h : shape_known frame = true) :
    lgl_template_frame_dup frame = some frame ∧
    ∀ d, lgl_template_frame_dup frame = some d →
      lgl_template_frame_get_size d = lgl_template_frame_get_size frame ∧
      lgl_template_frame_get_n_labels d = lgl_template_frame_get_n_labels frame ∧
      lgl_template_frame_get_origins d = lgl_template_frame_get_origins frame := by
  have heq : lgl_template_frame_dup frame = some frame := by
    rw [frame_dup_eq]
    cases frame with
    | unknown all => simp [shape_known] at h
    | rect all w h r xw yw => rfl
    | round all r waste => rfl
    | cd all r1 r2 w h waste => rfl
  refine ⟨heq, fun d hd => ?_⟩
  rw [heq] at hd
  injection hd with hd
  subst hd
  exact ⟨rfl, rfl, rfl⟩

/-- Witness of C18: the copy of the round frame `twoLayoutFrame`, with its two layouts. -/
theorem frame_dup_known_shape_witness :
    lgl_template_frame_dup twoLayoutFrame = some twoLayoutFrame :=
  (frame_dup_known_shape twoLayoutFrame (by decide)).1

/-- C20: `lgl_template_new` returns a template with the five given field values, the
alias list `[name]`, no category and no frame. -/
theorem template_new_fields (name description page_size : String)
    (page_width page_height : R) :
    (lgl_template_new name description page_size page_width page_height).name = name ∧
    (lgl_template_new name description page_size page_width page_height).description
      = description ∧
    (lgl_template_new name description page_size page_width page_height).page_size
      = page_size ∧
    (lgl_template_new name description page_size page_width page_height).page_width
      = page_width ∧
    (lgl_template_new name description page_size page_width page_height).page_height
      = page_height ∧
    (lgl_template_new name description page_size page_width page_height).aliases = [name] ∧
    (lgl_template_new name description page_size page_width page_height).categories = [] ∧
    (lgl_template_new name description page_size page_width page_height).frames = [] :=
  ⟨rfl, rfl, rfl, rfl, rfl, rfl, rfl, rfl⟩

/-- C21: the alias invariant (the alias list is not empty and its first element is the
name) holds for every template of `lgl_template_new`; it is kept by
`lgl_template_add_alias`, `lgl_template_add_category` and `lgl_template_add_frame`,
each of which appends to the end of its own list and leaves every other field as it
is; and it holds for `lgl_template_dup t` for every template `t`. -/
theorem alias_invariant_kept :
    (∀ (name description page_size : String) (page_width page_height : R),
      alias_invariant (lgl_template_new name description page_size page_width page_height)) ∧
    (∀ (t : lglTemplate R) (alias_name : String),
      lgl_template_add_alias t (some alias_name)
        = { t with aliases := t.aliases ++ [alias_name] } ∧
      (alias_invariant t → alias_invariant (lgl_template_add_alias t (some alias_name)))) ∧
    (∀ (t : lglTemplate R) (category : String),
      lgl_template_add_category t (some category)
        = { t with categories := t.categories ++ [category] } ∧
      (alias_invariant t → alias_invariant (lgl_template_add_category t (some category)))) ∧
    (∀ (t : lglTemplate R) (frame : lglTemplateFrame R),
      lgl_template_add_frame t (some frame) = { t with frames := t.frames ++ [frame] } ∧
      (alias_invariant t → alias_invariant (lgl_template_add_frame t (some frame)))) ∧
    (∀ t : lglTemplate R, ∃ d, lgl_template_dup (some t) = some d ∧ alias_invariant d) := by
  refine ⟨fun _ _ _ _ _ => rfl, fun t a => ⟨rfl, fun h => ?_⟩, fun t c => ⟨rfl, fun h => h⟩,
    fun t f => ⟨rfl, fun h => h⟩, fun t => ⟨_, template_dup_eq t, rfl⟩⟩
  unfold alias_invariant at h ⊢
  cases hal : t.aliases with
  | nil => rw [hal] at h; cases h
  | cons x rest =>
    rw [hal] at h
    simp only [lgl_template_add_alias, hal, List.cons_append, List.head?_cons] at h ⊢
    exact h

/-- Witness of C21: adding an alias, a category and a frame to `exTemplateA` keeps
`Avery 5160` as first alias. -/
theorem alias_invariant_kept_witness :
    alias_invariant
      (lgl_template_add_frame
        (lgl_template_add_category
          (lgl_template_add_alias exTemplateA (some "Avery 5960")) (some "mail"))
        (some emptyFrame)) :=
  ((@alias_invariant_kept Int _).2.2.2.1 _ emptyFrame).2
    (((@alias_invariant_kept Int _).2.2.1 _ "mail").2
      (((@alias_invariant_kept Int _).2.1 exTemplateA "Avery 5960").2 rfl))

/-- C22: for every template `t`, `lgl_template_does_page_size_match` is true for the
page size `NULL`, and for a page size that is not `NULL` it is true if and only if the
page size equals `t.page_size` ignoring case. -/
theorem page_size_match_iff (t : lglTemplate R) :
    lgl_template_does_page_size_match (some t) none = true ∧
    ∀ page_size : String,
      lgl_template_does_page_size_match (some t) (some page_size) = true ↔
        g_strcasecmp page_size t.page_size = 0 := by
  refine ⟨rfl, fun page_size => ?_⟩
  simp [lgl_template_does_page_size_match]

/-- C23: for every template `t`, `lgl_template_does_category_match` is true for the
category `NULL` (also when `t` has no category), and for a category that is not `NULL`
it is true if and only if some element of `t.categories` equals the category ignoring
case. -/
theorem category_match_iff (t : lglTemplate R) :
    lgl_template_does_category_match (some t) none = true ∧
    ∀ category : String,
      lgl_template_does_category_match (some t) (some category) = true ↔
        ∃ c ∈ t.categories, g_strcasecmp category c = 0 := by
  refine ⟨rfl, fun category => ?_⟩
  simp [lgl_template_does_category_match]

/-- The templates of a directory are appended to the templates read before. -/
theorem read_template_files_from_dir_fst (env : Env R)
    (acc : List (Option (lglTemplate R)) × List String) (dirname : Option String) :
    (read_template_files_from_dir env acc dirname).1
      = acc.1 ++ (read_template_files_from_dir env ([], []) dirname).1 := by
  have hfold : ∀ (dir : String) (files : List String) (init : List (Option (lglTemplate R))),
      files.foldl (fun templates filename =>
          if ((strrchr filename '.').any (fun e => g_strcasecmp e ".template" == 0)) ||
             ((strrchr filename '-').any (fun e => g_strcasecmp e "-templates.xml" == 0)) then
            templates ++ (env.lgl_xml_template_read_templates_from_file
              (env.g_build_filename dir filename)).map some
          else templates) init
        = init ++ files.foldl (fun templates filename =>
          if ((strrchr filename '.').any (fun e => g_strcasecmp e ".template" == 0)) ||
             ((strrchr filename '-').any (fun e => g_strcasecmp e "-templates.xml" == 0)) then
            templates ++ (env.lgl_xml_template_read_templates_from_file
              (env.g_build_filename dir filename)).map some
          else templates) [] := by
    intro dir files
    induction files with
    | nil => intro init; simp
    | cons f files ih =>
      intro init
      rw [List.foldl_cons, List.foldl_cons, ih]
      conv_rhs => rw [ih]
      split_ifs <;> simp
  cases dirname with
  | none => simp [read_template_files_from_dir]
  | some dirname =>
    unfold read_template_files_from_dir
    simp only
    split_ifs with hexists
    · simp
    · cases env.g_dir_open dirname with
      | error message => simp
      | ok filenames =>
        simp only
        exact hfold dirname filenames acc.1

theorem read_templates_fst (env : Env R) :
    (read_templates env).1
      = (read_template_files_from_dir env ([], []) (some env.LGL_SYSTEM_DATA_DIR)).1 ++
        (read_template_files_from_dir env ([], []) (some env.LGL_USER_DATA_DIR)).1 := by
  unfold read_templates
  simp only
  split_ifs <;> exact read_template_files_from_dir_fst env _ _

theorem init_full_pages_loop (env : Env R) (ids : List String)
    (init : List (Option (lglTemplate R))) :
    ids.foldl (fun templates id =>
        if !env.lgl_paper_is_id_other id then templates ++ [template_full_page env id]
        else templates) init
      = init ++ (ids.filter (fun id => !env.lgl_paper_is_id_other id)).map
          (template_full_page env) := by
  induction ids generalizing init with
  | nil => simp
  | cons id ids ih =>
    rw [List.foldl_cons, ih]
    cases h : env.lgl_paper_is_id_other id <;> simp [h]

/-- The registry that `lgl_template_init` builds from the empty one. -/
theorem init_of_nil (env : Env R) (written : List (lglTemplate R × String))
    (dirs messages : List String) :
    (lgl_template_init env
        { templates := [], written := written, dirs := dirs, messages := messages }).templates
      = (read_template_files_from_dir env ([], []) (some env.LGL_SYSTEM_DATA_DIR)).1 ++
        (read_template_files_from_dir env ([], []) (some env.LGL_USER_DATA_DIR)).1 ++
        (env.lgl_paper_get_id_list.filter (fun id => !env.lgl_paper_is_id_other id)).map
          (template_full_page env) := by
  unfold lgl_template_init
  simp only [ne_eq, not_true_eq_false, if_false]
  rw [init_full_pages_loop, read_templates_fst]

/-- The full-page template of a page size in closed form. -/
theorem template_full_page_eq (env : Env R) (page_size : String) :
    template_full_page env page_size
      = (env.lgl_paper_from_id page_size).map (fun paper =>
          { name := env.generic_full_page_name page_size, description := FULL_PAGE,
            page_size := page_size, page_width := paper.width, page_height := paper.height,
            aliases := [env.generic_full_page_name page_size], categories := [],
            frames := [full_page_frame paper] }) := by
  unfold template_full_page
  cases env.lgl_paper_from_id page_size with
  | none => rfl
  | some paper => rfl

theorem g_strcasecmp_antisymm (a b : String) : g_strcasecmp a b = - g_strcasecmp b a :=
  g_strcasecmp_codes_antisymm _ _

/-- Equality ignoring case is transitive. -/
theorem g_strcasecmp_eq_zero_trans (a b c : String) (hab : g_strcasecmp a b = 0)
    (hbc : g_strcasecmp b c = 0) : g_strcasecmp a c = 0 := by
  have h1 : g_strcasecmp a c ≤ 0 := g_strcasecmp_trans a b c (le_of_eq hab) (le_of_eq hbc)
  have hba : g_strcasecmp b a = 0 := (g_strcasecmp_eq_zero_comm a b).mp hab
  have hcb : g_strcasecmp c b = 0 := (g_strcasecmp_eq_zero_comm b c).mp hbc
  have h2 : g_strcasecmp c a ≤ 0 := g_strcasecmp_trans c b a (le_of_eq hcb) (le_of_eq hba)
  have h3 := g_strcasecmp_antisymm a c
  omega

theorem filterMap_frame_dup_of_known (fs : List (lglTemplateFrame R))
    (h : ∀ frame ∈ fs, shape_known frame = true) :
    fs.filterMap lgl_template_frame_dup = fs := by
  induction fs with
  | nil => rfl
  | cons f fs ih =>
    have hf := h f (List.mem_cons_self _ _)
    have ih2 := ih (fun g hg => h g (List.mem_cons_of_mem _ hg))
    cases f <;> simp_all [List.filterMap_cons, frame_dup_eq, shape_known]

theorem filterMap_frame_dup_known (fs : List (lglTemplateFrame R)) :
    ∀ frame ∈ fs.filterMap lgl_template_frame_dup, shape_known frame = true := by
  intro frame hmem
  rw [List.mem_filterMap] at hmem
  obtain ⟨g, _, hg⟩ := hmem
  rw [frame_dup_eq] at hg
  cases g <;> simp at hg <;> subst hg <;> rfl

/-- The copy of a well-formed template is the template. -/
theorem template_dup_of_well_formed (t : lglTemplate R) (h : well_formed t) :
    lgl_template_dup (some t) = some t := by
  obtain ⟨hhead, htail, hframes⟩ := h
  rw [template_dup_eq, filterMap_frame_dup_of_known t.frames hframes]
  cases t with
  | mk name description page_size page_width page_height aliases categories frames =>
    simp only at hhead htail hframes ⊢
    cases aliases with
    | nil => cases hhead
    | cons a rest =>
      simp only [List.head?_cons, Option.some.injEq, List.tail_cons] at hhead htail
      subst hhead
      have hrest : rest.filter (fun alias_name => g_strcasecmp a alias_name ≠ 0) = rest := by
        rw [List.filter_eq_self]
        intro x hx
        simpa using htail x hx
      simp [List.filter_cons, g_strcasecmp_refl]
      exact htail

/-- The copy of a template is well-formed. -/
theorem template_dup_well_formed (t d : lglTemplate R) (h : lgl_template_dup (some t) = some d) :
    well_formed d := by
  rw [template_dup_eq] at h
  injection h with h
  subst h
  refine ⟨rfl, ?_, filterMap_frame_dup_known t.frames⟩
  intro a ha
  simp only [List.tail_cons] at ha
  rw [List.mem_filter] at ha
  simpa using ha.2

/-- When an alias of a template equals a name ignoring case, so does an alias of its
copy. -/
theorem template_dup_keeps_lookup_name (t d : lglTemplate R) (n : String)
    (h : lgl_template_dup (some t) = some d)
    (ha : ∃ alias_name ∈ t.aliases, g_strcasecmp alias_name n = 0) :
    ∃ alias_name ∈ d.aliases, g_strcasecmp alias_name n = 0 := by
  rw [template_dup_eq] at h
  injection h with h
  subst h
  obtain ⟨a, hmem, hcmp⟩ := ha
  by_cases hname : g_strcasecmp t.name a = 0
  · exact ⟨t.name, List.mem_cons_self _ _, g_strcasecmp_eq_zero_trans _ _ _ hname hcmp⟩
  · refine ⟨a, List.mem_cons_of_mem _ ?_, hcmp⟩
    rw [List.mem_filter]
    exact ⟨hmem, by simpa using hname⟩

theorem state_eta (s : State R) (l : List (Option (lglTemplate R))) (h : s.templates = l) :
    s = { templates := l, written := s.written, dirs := s.dirs, messages := s.messages } := by
  cases s
  simp only at h
  subst h
  rfl

theorem mem_matching_templates (ts : List (lglTemplate R)) (page_size category : Option String)
    (t : lglTemplate R) (h : t ∈ matching_templates (ts.map some) page_size category) :
    t ∈ ts := by
  unfold matching_templates at h
  rw [List.mem_filter] at h
  have h1 := h.1
  rw [List.mem_filterMap] at h1
  obtain ⟨x, hx, hid⟩ := h1
  rw [List.mem_map] at hx
  obtain ⟨y, hy, hxy⟩ := hx
  subst hxy
  simp only [id_eq, Option.some.injEq] at hid
  subst hid
  exact hy

/-- The lookup on a state whose registry is a list of templates. -/
theorem from_name_of_match_state (env : Env R) (s : State R) (ts : List (lglTemplate R))
    (hs : s.templates = ts.map some) (name : String) (t : lglTemplate R)
    (h : first_with_alias name ts = some t) :
    lgl_template_from_name env s (some name) = some (lgl_template_dup (some t), s) := by
  have heta := state_eta s _ hs
  rw [heta]
  exact from_name_of_match env ts s.written s.dirs s.messages name t h

/-- The registration of a new template with a known page size adds its copy at the
end of the registry. -/
theorem register_new_state (env : Env R) (ts : List (lglTemplate R))
    (written : List (lglTemplate R × String)) (dirs messages : List String)
    (template : lglTemplate R)
    (hinit : initialized env
      { templates := ts.map some, written := written, dirs := dirs, messages := messages })
    (hnew : ∀ t1 ∈ ts, ∀ alias_name ∈ t1.aliases, g_strcasecmp template.name alias_name ≠ 0)
    (hpage : env.lgl_paper_is_id_known template.page_size = true) :
    ∃ s, lgl_template_register env
          { templates := ts.map some, written := written, dirs := dirs, messages := messages }
          template = some s ∧
      s.templates = ts.map some ++ [lgl_template_dup (some template)] := by
  cases ts with
  | nil =>
    unfold initialized at hinit
    simp only [List.map_nil] at hinit ⊢
    unfold lgl_template_register
    simp only [if_true, hinit, register_scan, hpage]
    exact ⟨_, rfl, rfl⟩
  | cons t ts =>
    have hne : (t :: ts).map some ≠ [] := by simp
    have hany : (t :: ts).any (fun t => t.aliases.any
        (fun alias_name => g_strcasecmp template.name alias_name == 0)) = false := by
      rw [Bool.eq_false_iff]
      intro h
      rw [List.any_eq_true] at h
      obtain ⟨t1, ht1, h1⟩ := h
      rw [List.any_eq_true] at h1
      obtain ⟨a, ha, hcmp⟩ := h1
      exact hnew t1 ht1 a ha (by simpa using hcmp)
    unfold lgl_template_register
    simp only [hne, if_false, register_scan_map_some, hany, hpage, if_true]
    exact ⟨_, rfl, rfl⟩

/-- The lookup of a name that an alias of a registered template equals ignoring case
takes the branch of the match, and the copy it returns has an alias equal to the
name ignoring case. -/
theorem from_name_of_alias (env : Env R) (s : State R) (ts : List (lglTemplate R))
    (hs : s.templates = ts.map some) (n : String)
    (h : ∃ t1 ∈ ts, ∃ alias_name ∈ t1.aliases, g_strcasecmp alias_name n = 0) :
    ∃ t d, first_with_alias n ts = some t ∧ lgl_template_dup (some t) = some d ∧
      lgl_template_from_name env s (some n) = some (some d, s) ∧
      ∃ alias_name ∈ d.aliases, g_strcasecmp alias_name n = 0 := by
  obtain ⟨t, ht⟩ := first_with_alias_of_match n ts h
  obtain ⟨d, hd⟩ : ∃ d, lgl_template_dup (some t) = some d := ⟨_, template_dup_eq t⟩
  refine ⟨t, d, ht, hd, ?_, ?_⟩
  · rw [from_name_of_match_state env s ts hs n t ht, hd]
  · exact template_dup_keeps_lookup_name t d n hd (first_with_alias_spec n ts t ht).1

/-- The entries that the module itself puts into the registry have their name as first
alias: the copy that `lgl_template_register` appends and the full-page templates of
`lgl_template_init`. -/
theorem module_entries_alias_invariant (env : Env R) :
    (∀ t d : lglTemplate R, lgl_template_dup (some t) = some d → alias_invariant d) ∧
    (∀ (id : String) (t : lglTemplate R), template_full_page env id = some t →
      alias_invariant t) := by
  refine ⟨fun t d h => (template_dup_well_formed t d h).1, fun id t h => ?_⟩
  rw [template_full_page_eq] at h
  cases hp : env.lgl_paper_from_id id with
  | none => rw [hp] at h; cases h
  | some paper =>
    rw [hp] at h
    injection h with h
    subst h
    rfl

/-- C24: `lgl_template_init` is idempotent: on a registry that is not empty it returns
the state as it is, whatever the reader and the paper module would answer (neither is
consulted, no message is added), and running it twice gives the same template list as
running it once. -/
theorem init_idempotent (env : Env R) (s : State R) :
    (s.templates ≠ [] → ∀ other : Env R, lgl_template_init other s = s) ∧
    (lgl_template_init env (lgl_template_init env s)).templates
      = (lgl_template_init env s).templates :=
  ⟨fun h other => init_of_ne_nil other s h, initialized_init env s⟩

/-- Witness of C24: on the example registry `lgl_template_init` changes nothing, also
in the environment `dupEnv` whose directories hold template files. -/
theorem init_idempotent_witness :
    lgl_template_init dupEnv exState = exState :=
  (init_idempotent exEnv exState).1 (by decide) dupEnv

/-- C27, as stated, fails: the template of `lgl_template_new` has one alias, its
name. -/
theorem template_new_has_an_alias :
    (lgl_template_new "Avery 5160" "Address labels" "US-Letter" (0 : Int) 0).aliases
      = ["Avery 5160"] ∧
    ¬ ((lgl_template_new "Avery 5160" "Address labels" "US-Letter" (0 : Int) 0).aliases = [] ∧
       (lgl_template_new "Avery 5160" "Address labels" "US-Letter" (0 : Int) 0).categories = [] ∧
       (lgl_template_new "Avery 5160" "Address labels" "US-Letter" (0 : Int) 0).frames = []) := by
  decide

/-- C27, amended: a template of `lgl_template_new` has no category and no frame, and its
alias list holds the name and nothing else; the first call of
`lgl_template_add_category` or `lgl_template_add_frame` gives the first category or
frame, and the first call of `lgl_template_add_alias` gives the first alias besides
the name. -/
theorem template_new_lists (name description page_size : String)
    (page_width page_height : R) :
    (lgl_template_new name description page_size page_width page_height).categories = [] ∧
    (lgl_template_new name description page_size page_width page_height).frames = [] ∧
    (lgl_template_new name description page_size page_width page_height).aliases.length = 1 ∧
    (∀ alias_name ∈
        (lgl_template_new name description page_size page_width page_height).aliases,
      alias_name = name) ∧
    (∀ category : String,
      (lgl_template_add_category
        (lgl_template_new name description page_size page_width page_height)
        (some category)).categories = [category]) ∧
    (∀ frame : lglTemplateFrame R,
      (lgl_template_add_frame
        (lgl_template_new name description page_size page_width page_height)
        (some frame)).frames = [frame]) ∧
    (∀ alias_name : String,
      (lgl_template_add_alias
        (lgl_template_new name description page_size page_width page_height)
        (some alias_name)).aliases = [name, alias_name]) := by
  refine ⟨rfl, rfl, rfl, ?_, fun _ => rfl, fun _ => rfl, fun _ => rfl⟩
  intro a ha
  simpa [lgl_template_new] using ha

/-- C25: from the empty registry `lgl_template_init` builds: the templates read from the
system directory, then those read from the user directory (nothing is removed), then,
for each id of the paper id list that is not the "Other" id and in the order of that
list, the full-page template of the id; that template has the id as page size and
exactly one frame, a rectangle with the width and the height of the paper (corner
radius and waste zero) with exactly one layout (`nx = 1`, `ny = 1`, `x0 = y0 = 0`) and
exactly one markup, a margin of size 9.  (The paper of each listed id is found by the
paper module.) -/
theorem init_builds_registry (env : Env R) (written : List (lglTemplate R × String))
    (dirs messages : List String) :
    (lgl_template_init env
        { templates := [], written := written, dirs := dirs, messages := messages }).templates
      = (read_template_files_from_dir env ([], []) (some env.LGL_SYSTEM_DATA_DIR)).1 ++
        (read_template_files_from_dir env ([], []) (some env.LGL_USER_DATA_DIR)).1 ++
        (env.lgl_paper_get_id_list.filter (fun id => !env.lgl_paper_is_id_other id)).map
          (template_full_page env) ∧
    (∀ (id : String) (paper : lglPaper R), env.lgl_paper_from_id id = some paper →
      ∃ t, template_full_page env id = some t ∧ t.page_size = id ∧
        t.frames = [full_page_frame paper]) ∧
    ((∀ id ∈ env.lgl_paper_get_id_list, env.lgl_paper_is_id_other id = false →
        (env.lgl_paper_from_id id).isSome = true) →
      ∃ synthetic : List (lglTemplate R),
        (lgl_template_init env
            { templates := [], written := written, dirs := dirs,
              messages := messages }).templates
          = (read_template_files_from_dir env ([], []) (some env.LGL_SYSTEM_DATA_DIR)).1 ++
            (read_template_files_from_dir env ([], []) (some env.LGL_USER_DATA_DIR)).1 ++
            synthetic.map some ∧
        List.Forall₂
          (fun id t => t.page_size = id ∧
            ∃ paper, env.lgl_paper_from_id id = some paper ∧
              t.frames = [full_page_frame paper])
          (env.lgl_paper_get_id_list.filter (fun id => !env.lgl_paper_is_id_other id))
          synthetic) := by
  refine ⟨init_of_nil env written dirs messages, ?_, ?_⟩
  · intro id paper hpaper
    rw [template_full_page_eq, hpaper]
    exact ⟨_, rfl, rfl, rfl⟩
  · intro hpaper
    rw [init_of_nil]
    have hids : ∀ id ∈ env.lgl_paper_get_id_list.filter (fun id => !env.lgl_paper_is_id_other id),
        ∃ paper, env.lgl_paper_from_id id = some paper := by
      intro id hid
      rw [List.mem_filter] at hid
      exact Option.isSome_iff_exists.mp (hpaper id hid.1 (by simpa using hid.2))
    generalize env.lgl_paper_get_id_list.filter (fun id => !env.lgl_paper_is_id_other id)
      = ids at hids
    have hsyn : ∃ synthetic : List (lglTemplate R),
        ids.map (template_full_page env) = synthetic.map some ∧
        List.Forall₂
          (fun id t => t.page_size = id ∧
            ∃ paper, env.lgl_paper_from_id id = some paper ∧
              t.frames = [full_page_frame paper]) ids synthetic := by
      induction ids with
      | nil => exact ⟨[], rfl, List.Forall₂.nil⟩
      | cons id ids ih =>
        obtain ⟨synthetic, hmap, hall⟩ := ih (fun i hi => hids i (List.mem_cons_of_mem _ hi))
        obtain ⟨paper, hp⟩ := hids id (List.mem_cons_self _ _)
        refine ⟨{ name := env.generic_full_page_name id, description := FULL_PAGE,
                  page_size := id, page_width := paper.width, page_height := paper.height,
                  aliases := [env.generic_full_page_name id], categories := [],
                  frames := [full_page_frame paper] } :: synthetic, ?_,
          List.Forall₂.cons ⟨?_, paper, hp, ?_⟩ hall⟩
        · rw [List.map_cons, List.map_cons, hmap, template_full_page_eq, hp]
          rfl
        · rfl
        · rfl
    obtain ⟨synthetic, hmap, hall⟩ := hsyn
    exact ⟨synthetic, by rw [hmap], hall⟩

/-- Witness of C25: in the environment `dupEnv` the registry built from the empty one
is the template of the system directory, the equal template of the user directory,
and the full-page template of `A4`. -/
theorem init_builds_registry_witness :
    ∃ synthetic : List (lglTemplate Int),
      (lgl_template_init dupEnv emptyState).templates
        = [some exTemplateA] ++ [some exTemplateA] ++ synthetic.map some ∧
      List.Forall₂
        (fun id t => t.page_size = id ∧
          ∃ paper, dupEnv.lgl_paper_from_id id = some paper ∧
            t.frames = [full_page_frame paper])
        ["A4"] synthetic :=
  (init_builds_registry dupEnv [] [] []).2.2 (by decide)

/-- C26: every name of the lists of `lgl_template_get_name_list_all` and of
`lgl_template_get_name_list_unique` is a valid lookup name: on a registry of templates
(each with its name as first alias, as the data model has it), for every pair of
filters and every string `n` of the list, `lgl_template_from_name n` finds a template
with an alias equal to `n` ignoring case (it does not fall back to the first
template), and the alias list of the returned copy has a string equal to `n` ignoring
case. -/
theorem listed_names_are_lookup_names (env : Env R) (s : State R) (ts : List (lglTemplate R))
    (page_size category : Option String)
    (hts : (ensure_init env s).templates = ts.map some) :
    (∀ n ∈ (lgl_template_get_name_list_all env s page_size category).1,
      ∃ t d, first_with_alias n ts = some t ∧ lgl_template_dup (some t) = some d ∧
        lgl_template_from_name env
            (lgl_template_get_name_list_all env s page_size category).2 (some n)
          = some (some d, (lgl_template_get_name_list_all env s page_size category).2) ∧
        ∃ alias_name ∈ d.aliases, g_strcasecmp alias_name n = 0) ∧
    ((∀ t ∈ ts, alias_invariant t) →
      ∀ n ∈ (lgl_template_get_name_list_unique env s page_size category).1,
        ∃ t d, first_with_alias n ts = some t ∧ lgl_template_dup (some t) = some d ∧
          lgl_template_from_name env
              (lgl_template_get_name_list_unique env s page_size category).2 (some n)
            = some (some d, (lgl_template_get_name_list_unique env s page_size category).2) ∧
          ∃ alias_name ∈ d.aliases, g_strcasecmp alias_name n = 0) := by
  constructor
  · intro n hn
    have hp := (name_list_all_loop page_size category (ensure_init env s).templates []).1
    rw [List.nil_append] at hp
    have hmem := hp.mem_iff.mp hn
    rw [hts, List.mem_flatMap] at hmem
    obtain ⟨t, ht, hnt⟩ := hmem
    exact from_name_of_alias env (ensure_init env s) ts hts n
      ⟨t, mem_matching_templates ts page_size category t ht, n, hnt, g_strcasecmp_refl n⟩
  · intro hinv n hn
    have hp := (name_list_unique_loop page_size category (ensure_init env s).templates []).1
    rw [List.nil_append] at hp
    have hmem := hp.mem_iff.mp hn
    rw [hts, List.mem_map] at hmem
    obtain ⟨t, ht, hnt⟩ := hmem
    have htts := mem_matching_templates ts page_size category t ht
    have hhead := hinv t htts
    unfold alias_invariant at hhead
    have hname : t.name ∈ t.aliases := List.mem_of_mem_head? hhead
    rw [hnt] at hname
    exact from_name_of_alias env (ensure_init env s) ts hts n
      ⟨t, htts, n, hname, g_strcasecmp_refl n⟩

/-- Witness of C26: `Avery 5260` is in the list of all names of the example registry and
`Generic CD` in the list of its template names; the lookup of each finds a template
with that alias. -/
theorem listed_names_are_lookup_names_witness :
    (∃ t d, first_with_alias "Avery 5260" [exTemplateA, exTemplateB] = some t ∧
      lgl_template_dup (some t) = some d ∧
      lgl_template_from_name exEnv exState (some "Avery 5260") = some (some d, exState) ∧
      ∃ alias_name ∈ d.aliases, g_strcasecmp alias_name "Avery 5260" = 0) ∧
    (∃ t d, first_with_alias "Generic CD" [exTemplateA, exTemplateB] = some t ∧
      lgl_template_dup (some t) = some d ∧
      lgl_template_from_name exEnv exState (some "Generic CD") = some (some d, exState) ∧
      ∃ alias_name ∈ d.aliases, g_strcasecmp alias_name "Generic CD" = 0) :=
  ⟨(listed_names_are_lookup_names exEnv exState [exTemplateA, exTemplateB] none none rfl).1
      "Avery 5260" (by decide),
   (listed_names_are_lookup_names exEnv exState [exTemplateA, exTemplateB] none none rfl).2
      (by unfold alias_invariant; decide) "Generic CD" (by decide)⟩

/-- C28: `lgl_template_dup` is the identity on well-formed templates: for a template
whose alias list starts with its name and has no other alias equal to the name
ignoring case, and whose frames all have shape Rect, Round or CD, the copy equals the
template field for field; the copy of any template is well-formed, so the copy of the
copy is the copy. -/
theorem template_dup_identity :
    (∀ t : lglTemplate R, well_formed t → lgl_template_dup (some t) = some t) ∧
    (∀ t d : lglTemplate R, lgl_template_dup (some t) = some d →
      well_formed d ∧ lgl_template_dup (some d) = some d) ∧
    (∀ t : lglTemplate R,
      (lgl_template_dup (some t)).bind (fun d => lgl_template_dup (some d))
        = lgl_template_dup (some t)) := by
  refine ⟨template_dup_of_well_formed, fun t d h =>
    ⟨template_dup_well_formed t d h,
      template_dup_of_well_formed d (template_dup_well_formed t d h)⟩, fun t => ?_⟩
  obtain ⟨d, hd⟩ : ∃ d, lgl_template_dup (some t) = some d := ⟨_, template_dup_eq t⟩
  rw [hd, Option.some_bind]
  exact template_dup_of_well_formed d (template_dup_well_formed t d hd)

/-- Witness of C28: `exTemplateA` is well-formed and is its own copy; the copy of
`exTemplateNameTwice`, which is not well-formed, is its own copy. -/
theorem template_dup_identity_witness :
    lgl_template_dup (some exTemplateA) = some exTemplateA ∧
    (lgl_template_dup (some exTemplateNameTwice)).bind (fun d => lgl_template_dup (some d))
      = lgl_template_dup (some exTemplateNameTwice) :=
  ⟨(@template_dup_identity Int _).1 exTemplateA (by unfold well_formed; decide),
   (@template_dup_identity Int _).2.2 exTemplateNameTwice⟩

/-- C29: registration followed by lookup is a round trip: on an initialised registry,
for a template whose name equals no alias of a registered template ignoring case and
whose page size is known, after `lgl_template_register` the lookup of the name of the
template returns a template equal to `lgl_template_dup` of it, and the lookup of every
name that an alias matched before the registration returns the same template as
before. -/
theorem register_then_lookup (env : Env R) (ts : List (lglTemplate R))
    (written : List (lglTemplate R × String)) (dirs messages : List String)
    (template : lglTemplate R)
    (hinit : initialized env
      { templates := ts.map some, written := written, dirs := dirs, messages := messages })
    (hnew : ∀ t1 ∈ ts, ∀ alias_name ∈ t1.aliases, g_strcasecmp template.name alias_name ≠ 0)
    (hpage : env.lgl_paper_is_id_known template.page_size = true) :
    ∃ d s, lgl_template_dup (some template) = some d ∧
      lgl_template_register env
          { templates := ts.map some, written := written, dirs := dirs, messages := messages }
          template = some s ∧
      lgl_template_from_name env s (some template.name) = some (some d, s) ∧
      ∀ (n : String) (t : lglTemplate R), first_with_alias n ts = some t →
        lgl_template_from_name env
            { templates := ts.map some, written := written, dirs := dirs,
              messages := messages } (some n)
          = some (lgl_template_dup (some t),
              { templates := ts.map some, written := written, dirs := dirs,
                messages := messages }) ∧
        lgl_template_from_name env s (some n) = some (lgl_template_dup (some t), s) := by
  obtain ⟨d, hd⟩ : ∃ d, lgl_template_dup (some template) = some d :=
    ⟨_, template_dup_eq template⟩
  obtain ⟨s, hreg, hs⟩ := register_new_state env ts written dirs messages template hinit hnew hpage
  have hs2 : s.templates = (ts ++ [d]).map some := by
    rw [hs, hd]; simp
  have hdd : lgl_template_dup (some d) = some d :=
    template_dup_of_well_formed d (template_dup_well_formed template d hd)
  have hdname : d.name = template.name := by
    have h := hd
    rw [template_dup_eq] at h
    injection h with h
    rw [← h]
  have hdalias : d.aliases.any (fun alias_name => g_strcasecmp alias_name template.name == 0)
      = true := by
    have hw := (template_dup_well_formed template d hd).1
    rw [List.any_eq_true]
    refine ⟨d.name, List.mem_of_mem_head? hw, ?_⟩
    rw [hdname]
    simp [g_strcasecmp_refl]
  refine ⟨d, s, hd, hreg, ?_, fun n t hfind => ⟨?_, ?_⟩⟩
  · have hfirst : first_with_alias template.name (ts ++ [d]) = some d := by
      unfold first_with_alias
      rw [List.find?_append]
      have hnone : ts.find? (fun t => t.aliases.any
          (fun alias_name => g_strcasecmp alias_name template.name == 0)) = none := by
        rw [List.find?_eq_none]
        intro t1 ht1 hany
        rw [List.any_eq_true] at hany
        obtain ⟨a, ha, hcmp⟩ := hany
        exact hnew t1 ht1 a ha
          ((g_strcasecmp_eq_zero_comm a template.name).mp (by simpa using hcmp))
      rw [hnone]
      simp [hdalias]
    rw [from_name_of_match_state env s (ts ++ [d]) hs2 template.name d hfirst, hdd]
  · exact from_name_of_match env ts written dirs messages n t hfind
  · have hfirst : first_with_alias n (ts ++ [d]) = some t := by
      unfold first_with_alias at hfind ⊢
      rw [List.find?_append, hfind]
      rfl
    exact from_name_of_match_state env s (ts ++ [d]) hs2 n t hfirst

/-- Witness of C29: after the registration of `exTemplateNew` on the example registry,
the lookup of `Home made` returns its copy and the lookup of `avery 5260` still
returns the copy of `exTemplateA`. -/
theorem register_then_lookup_witness :
    ∃ d s, lgl_template_dup (some exTemplateNew) = some d ∧
      lgl_template_register exEnv exState exTemplateNew = some s ∧
      lgl_template_from_name exEnv s (some "Home made") = some (some d, s) ∧
      lgl_template_from_name exEnv s (some "avery 5260")
        = some (lgl_template_dup (some exTemplateA), s) := by
  obtain ⟨d, s, hd, hreg, hlook, hold⟩ :=
    register_then_lookup exEnv [exTemplateA, exTemplateB] [] [] [] exTemplateNew
      (by unfold initialized; decide) (by decide) (by decide)
  exact ⟨d, s, hd, hreg, hlook, (hold "avery 5260" exTemplateA (by decide)).2⟩

end Glabels
